import Mathlib

/-!
Trainer appointments: availability and booking validation.

A shallow embedding of `handlers/handlers.go` and of the `models.Appointment`
table it reads and writes, followed by theorems about the embedded handlers.

Go values are represented as follows.

* `time.Time` is a pair of an absolute instant, counted in nanoseconds since the
  Unix epoch, and a `Location`.
* A `Location` is what the program observes of a `*time.Location`: the offset east
  of UTC, in seconds, in force at a given Unix second.
* `time.Duration` is an `Int` number of nanoseconds.
* Three things the handlers call but whose code lives outside the repository are
  taken as parameters, collected in `Env`: the time zone table entry loaded for
  `America/Los_Angeles`, `time.Parse(time.RFC3339, ·)`, and the reading of a text
  parameter compared with a `bigint` column.
* The appointments table is a list of rows with the unique index on
  `(trainer_id, starts_at)` that `models.Appointment` declares; failures of the
  database server itself are outside the model.
* Dated examples instantiate `Env` with the Los Angeles daylight rule in force
  since 2007 and a reader of RFC 3339 texts.
-/

namespace Appointments

/-! ## Durations and clock arithmetic -/

/-- Go: `time.Second`, in nanoseconds. -/
def Second : Int := 1000000000

/-- Go: `time.Minute`. -/
def Minute : Int := 60 * Second

/-- Go: `duration = 30 * time.Minute`. -/
def duration : Int := 30 * Minute

/-- Go: `startHour = 8`. -/
def startHour : Int := 8

/-- Go: `endHour = 17`. -/
def endHour : Int := 17

/-- Go: `time.Sunday`. -/
def Sunday : Int := 0

/-- Go: `time.Saturday`. -/
def Saturday : Int := 6

/-- Largest `time.Duration` (an int64 count of nanoseconds). -/
def maxDuration : Int := 9223372036854775807

/-- Smallest `time.Duration`. -/
def minDuration : Int := -9223372036854775808

/-- What the program observes of a `*time.Location`: the offset east of UTC, in
seconds, in force at a Unix second. -/
structure Location where
  lookup : Int → Int

/-- Go: `time.UTC`. -/
def Location.UTC : Location := ⟨fun _ => 0⟩

/-- Go: `time.FixedZone(_, offset)`, the location `time.Parse` fabricates for a
written numeric offset. -/
def FixedZone (offset : Int) : Location := ⟨fun _ => offset⟩

/-- Go `time.Time`: an instant in nanoseconds since the Unix epoch, and the
location in which its clock fields are read. -/
structure Time where
  ns : Int
  loc : Location

/-- Unix second of the instant (the nanoseconds are dropped, rounding down). -/
def Time.Unix (t : Time) : Int := t.ns / Second

/-- Seconds since the epoch on the wall clock of the time's own location. -/
def Time.abs (t : Time) : Int := t.Unix + t.loc.lookup t.Unix

/-- Go: `t.Weekday()`, with `Sunday = 0`; 1970-01-01 was a Thursday. -/
def Time.Weekday (t : Time) : Int := (t.abs / 86400 + 4) % 7

/-- Go: `t.Hour()`. -/
def Time.Hour (t : Time) : Int := t.abs % 86400 / 3600

/-- Go: `t.Minute()`. -/
def Time.Minute (t : Time) : Int := t.abs % 3600 / 60

/-- Go: `t.In(loc)`: same instant, read in another location. -/
def Time.In (t : Time) (loc : Location) : Time := { t with loc := loc }

/-- Go: `t.UTC()`. -/
def Time.UTC (t : Time) : Time := { t with loc := Location.UTC }

/-- Go: `t.Before(u)`. -/
def Time.Before (t u : Time) : Bool := decide (t.ns < u.ns)

/-- Go: `t.Add(d)`: the location is kept. -/
def Time.Add (t : Time) (d : Int) : Time := { t with ns := t.ns + d }

/-- Go: `t.Sub(u)`, which saturates at the largest and smallest `Duration`. -/
def Time.Sub (t u : Time) : Int :=
  if t.ns - u.ns > maxDuration then maxDuration
  else if t.ns - u.ns < minDuration then minDuration
  else t.ns - u.ns

/-- Go: `t.Format(time.RFC3339)` for a time in UTC. The layout has no fractional
seconds, so the text `YYYY-MM-DDTHH:MM:SSZ` is determined by the Unix second and
distinct seconds give distinct texts; the text is represented by that second. -/
def Time.Format (t : Time) : Int := t.Unix

/-! ## Business hours -/

/-- Go: `isBusinessHours`, with the loaded `pacificTZ` as a parameter. -/
def isBusinessHours (pacificTZ : Location) (t : Time) : Bool :=
  let ptTime := t.In pacificTZ
  ptTime.Weekday != Saturday &&
    ptTime.Weekday != Sunday &&
    decide (ptTime.Hour ≥ startHour) &&
    decide (ptTime.Hour < endHour)

/-! ## Calendar arithmetic for dated examples -/

/-- Days from 1970-01-01 to the given proleptic Gregorian date. -/
def daysFromCivil (y m d : Int) : Int :=
  let y1 := if m ≤ 2 then y - 1 else y
  let era := y1 / 400
  let yoe := y1 - era * 400
  let mp := (m + 9) % 12
  let doy := (153 * mp + 2) / 5 + d - 1
  let doe := yoe * 365 + yoe / 4 - yoe / 100 + doy
  era * 146097 + doe - 719468

/-- Gregorian year of a day counted from 1970-01-01. -/
def yearOfDay (days : Int) : Int :=
  let z := days + 719468
  let era := z / 146097
  let doe := z - era * 146097
  let yoe := (doe - doe / 1460 + doe / 36524 - doe / 146096) / 365
  let doy := doe - (365 * yoe + yoe / 4 - yoe / 100)
  let mp := (5 * doy + 2) / 153
  if mp < 10 then yoe + era * 400 else yoe + era * 400 + 1

/-- Day number of the `n`-th Sunday of a month. -/
def nthSunday (y m n : Int) : Int :=
  let first := daysFromCivil y m 1
  first + (7 - (first + 4) % 7) % 7 + 7 * (n - 1)

/-- The rule `PST8PDT,M3.2.0,M11.1.0` that the zone `America/Los_Angeles` has
followed since 2007: daylight time from 02:00 on the second Sunday of March to
02:00 on the first Sunday of November of the civil year read on the standard
clock. It stands for the loaded `pacificTZ` in the dated examples, all of which
fall in 2019. -/
def losAngeles : Location :=
  ⟨fun sec =>
    let year := yearOfDay ((sec - 28800) / 86400)
    let start := nthSunday year 3 2 * 86400 + 10 * 3600
    let stop := nthSunday year 11 1 * 86400 + 9 * 3600
    if start ≤ sec ∧ sec < stop then -25200 else -28800⟩

/-- Go: `time.Date(y, m, d, hh, mm, ss, 0, time.FixedZone(_, offset))`. -/
def Date (y m d hh mm ss offset : Int) : Time :=
  ⟨(daysFromCivil y m d * 86400 + hh * 3600 + mm * 60 + ss - offset) * Second,
    FixedZone offset⟩

/-! ## A concrete reading of RFC 3339 texts for dated examples -/

/-- Value of a decimal digit. -/
def digit (c : Char) : Option Int :=
  if '0' ≤ c ∧ c ≤ '9' then some (Int.ofNat (c.toNat - 48)) else none

/-- Value of a two-digit field. -/
def field2 (a b : Char) : Option Int :=
  match digit a, digit b with
  | some x, some y => some (10 * x + y)
  | _, _ => none

/-- Value in nanoseconds of the digits of a fractional second, with what follows
them; `scale` is the weight of the next digit, and digits past the ninth are
dropped. -/
def fraction : Int → List Char → Int × List Char
  | _, [] => (0, [])
  | scale, c :: cs =>
    match digit c with
    | some d => let r := fraction (scale / 10) cs; (d * scale + r.1, r.2)
    | none => (0, c :: cs)

/-- The zone designator: `Z`, or a signed `hh:mm` offset, in seconds east. -/
def zone : List Char → Option (Option Int)
  | ['Z'] => some none
  | [sg, a, b, ':', c, d] =>
    match field2 a b, field2 c d with
    | some hh, some mm =>
      if hh ≤ 23 ∧ mm ≤ 59 then
        if sg = '+' then some (some (hh * 3600 + mm * 60))
        else if sg = '-' then some (some (-(hh * 3600 + mm * 60)))
        else none
      else none
    | _, _ => none
  | _ => none

/-- Number of days of a month. -/
def daysIn (y m : Int) : Int :=
  if m = 2 then (if y % 4 = 0 ∧ (y % 100 ≠ 0 ∨ y % 400 = 0) then 29 else 28)
  else if m = 4 ∨ m = 6 ∨ m = 9 ∨ m = 11 then 30 else 31

/-- A reading of `time.Parse(time.RFC3339, s)` on texts of the shape
`YYYY-MM-DDTHH:MM:SS[.fraction](Z|±hh:mm)`: the instant the text denotes, in UTC
for `Z` and otherwise in a fixed zone at the written offset. It stands for the
library parser in the dated examples. -/
def parseRFC3339 (s : String) : Option Time :=
  match s.data with
  | y1 :: y2 :: y3 :: y4 :: '-' :: m1 :: m2 :: '-' :: d1 :: d2 :: 'T' ::
      h1 :: h2 :: ':' :: n1 :: n2 :: ':' :: s1 :: s2 :: rest =>
    match field2 y1 y2, field2 y3 y4, field2 m1 m2, field2 d1 d2,
        field2 h1 h2, field2 n1 n2, field2 s1 s2 with
    | some yh, some yl, some mo, some dd, some hh, some mi, some ss =>
      let y := 100 * yh + yl
      if 1 ≤ mo ∧ mo ≤ 12 ∧ 1 ≤ dd ∧ dd ≤ daysIn y mo ∧ hh ≤ 23 ∧ mi ≤ 59 ∧ ss ≤ 59 then
        let fr : Option (Int × List Char) :=
          match rest with
          | '.' :: c :: cs => if (digit c).isSome then some (fraction 100000000 (c :: cs)) else none
          | _ => some (0, rest)
        match fr with
        | some (nanos, tail) =>
          let wall := daysFromCivil y mo dd * 86400 + hh * 3600 + mi * 60 + ss
          match zone tail with
          | some none => some ⟨wall * Second + nanos, Location.UTC⟩
          | some (some off) => some ⟨(wall - off) * Second + nanos, FixedZone off⟩
          | none => none
        | none => none
      else none
    | _, _, _, _, _, _, _ => none
  | _ => none

/-- Value of a run of decimal digits read left to right, starting from `acc`;
`none` when a character is not a digit. -/
def digits : Int → List Char → Option Int
  | acc, [] => some acc
  | acc, c :: cs =>
    match digit c with
    | some d => digits (10 * acc + d) cs
    | none => none

/-- A reading of the text of a `bigint`: an optional sign and at least one
decimal digit, within the 64-bit range. It stands for the database's reading in
the dated examples. -/
def readInt8 (s : String) : Option Int :=
  let signed : Option Int :=
    match s.data with
    | [] => none
    | ['-'] => none
    | ['+'] => none
    | '-' :: cs => (digits 0 cs).map fun n => -n
    | '+' :: cs => digits 0 cs
    | cs => digits 0 cs
  match signed with
  | some n => if minDuration ≤ n ∧ n ≤ maxDuration then some n else none
  | none => none

/-! ## The environment of the handlers -/

/-- What the handlers use and the repository does not define. `pacificTZ` is the
location returned by `time.LoadLocation("America/Los_Angeles")`; `Parse s` is
`time.Parse(time.RFC3339, s)`, with `none` for an error; `int8 s` is the value
the database gives to the text `s` where the statement compares it with the
`bigint` column `trainer_id`, with `none` when the database rejects the text. -/
structure Env where
  pacificTZ : Location
  Parse : String → Option Time
  int8 : String → Option Int

/-- The environment of the dated examples. -/
def example2019 : Env := ⟨losAngeles, parseRFC3339, readInt8⟩

/-! ## The appointments table -/

/-- Go: `models.Appointment`. Of the embedded `gorm.Model` only the primary key
`ID` is kept; the handlers read no other field of it. -/
structure Appointment where
  ID : Nat
  TrainerID : Int
  UserID : Int
  StartsAt : Time
  EndsAt : Time

/-- The table behind `Handler.DB`: its rows, oldest first, each keeping the
instants it was given. -/
structure DB where
  rows : List Appointment

/-- Failure of a statement. `uniqueViolation` is the error whose text contains
`duplicate key value violates unique constraint`. -/
inductive DBError where
  | uniqueViolation
  | other

/-- Go: `Where("trainer_id = ? AND starts_at >= ? AND starts_at < ?", trainerID,
lo, hi).Find(&booked)`. The statement fails when the text `trainerID` is not a
`bigint`. -/
def DB.FindBooked (env : Env) (db : DB) (trainerID : String) (lo hi : Time) :
    Except DBError (List Appointment) :=
  match env.int8 trainerID with
  | none => .error .other
  | some id =>
    .ok (db.rows.filter fun apt =>
      decide (apt.TrainerID = id) && decide (apt.StartsAt.ns ≥ lo.ns) &&
        decide (apt.StartsAt.ns < hi.ns))

/-- Go: `Where("trainer_id = ?", trainerID).Find(&appointments)`. -/
def DB.FindByTrainer (env : Env) (db : DB) (trainerID : String) :
    Except DBError (List Appointment) :=
  match env.int8 trainerID with
  | none => .error .other
  | some id => .ok (db.rows.filter fun apt => decide (apt.TrainerID = id))

/-- A primary key no row carries. -/
def DB.nextID (db : DB) : Nat := (db.rows.map fun apt => apt.ID).foldl max 0 + 1

/-- Go: `DB.Create(&appointment)` on a table with the unique index
`idx_trainer_start` on `(trainer_id, starts_at)` declared in `models.Appointment`:
the insert is refused when a row has the same trainer and the same start
instant; otherwise the row is appended under a fresh primary key. -/
def DB.Create (db : DB) (appointment : Appointment) : Except DBError (Appointment × DB) :=
  if db.rows.any fun apt =>
      decide (apt.TrainerID = appointment.TrainerID) &&
        decide (apt.StartsAt.ns = appointment.StartsAt.ns) then
    .error .uniqueViolation
  else
    let stored := { appointment with ID := db.nextID }
    .ok (stored, ⟨db.rows ++ [stored]⟩)

/-! ## Requests and responses -/

/-- Go: `AvailableSlot`. -/
structure AvailableSlot where
  StartsAt : Time
  EndsAt : Time

/-- The JSON document of a response. -/
inductive Body where
  | error (message : String)
  | slots (response : List AvailableSlot)
  | appointment (id : Nat) (trainer_id user_id : Int) (starts_at ends_at : Time)
  | appointments (response : List Appointment)

/-- Status code and document written by `c.JSON`. -/
structure Response where
  status : Nat
  body : Body

/-- The three query parameters as `c.Query` returns them: the empty text when
the parameter is absent. -/
structure Query where
  trainer_id : String
  starts_at : String
  ends_at : String

/-- The `req` struct filled by `c.ShouldBindJSON`; a field absent from the
document keeps its zero value. -/
structure CreateRequest where
  TrainerID : Int
  UserID : Int
  StartsAt : String
  EndsAt : String

/-! ## The handlers -/

/-- The loop of `GetAvailableAppointments`:
`for current := startsAt; current.Before(endsAt); current = current.Add(duration)`.
`bookedTimes` holds the keys set to `true` in the Go map. The first argument
bounds the number of iterations; by `walk_eq` and `cursorCount_le` the bound
passed by the handler is never reached. -/
def walk (pacificTZ : Location) (bookedTimes : List Int) (endsAt : Time) :
    Nat → Time → List AvailableSlot
  | 0, _ => []
  | fuel + 1, current =>
    if current.Before endsAt then
      if isBusinessHours pacificTZ current && !bookedTimes.contains current.UTC.Format then
        ⟨current, current.Add duration⟩ :: walk pacificTZ bookedTimes endsAt fuel (current.Add duration)
      else walk pacificTZ bookedTimes endsAt fuel (current.Add duration)
    else []

/-- Go: `Handler.GetAvailableAppointments`. -/
def GetAvailableAppointments (env : Env) (db : DB) (q : Query) : Response :=
  let trainerID := q.trainer_id
  if trainerID = "" ∨ q.starts_at = "" ∨ q.ends_at = "" then
    ⟨400, .error "Missing required query parameters: trainer_id, starts_at, ends_at"⟩
  else
    match env.Parse q.starts_at, env.Parse q.ends_at with
    | some startsAt, some endsAt =>
      match db.FindBooked env trainerID startsAt.UTC endsAt.UTC with
      | .error _ => ⟨500, .error "Failed to fetch appointments"⟩
      | .ok booked =>
        let bookedTimes := booked.map fun apt => apt.StartsAt.UTC.Format
        let available :=
          walk env.pacificTZ bookedTimes endsAt (endsAt.ns - startsAt.ns).toNat startsAt
        let response := available.map fun slot =>
          (⟨slot.StartsAt.In env.pacificTZ, slot.EndsAt.In env.pacificTZ⟩ : AvailableSlot)
        ⟨200, .slots response⟩
    | _, _ => ⟨400, .error "Invalid date format for starts_at or ends_at"⟩

/-- Go: `Handler.CreateAppointment`. `body` is the outcome of
`c.ShouldBindJSON(&req)`: the bound struct, or the text of the binding error. -/
def CreateAppointment (env : Env) (db : DB) (body : Except String CreateRequest) :
    Response × DB :=
  match body with
  | .error err => (⟨400, .error err⟩, db)
  | .ok req =>
    match env.Parse req.StartsAt, env.Parse req.EndsAt with
    | some startsAt, some endsAt =>
      if !isBusinessHours env.pacificTZ startsAt then
        (⟨400, .error "Appointments must be during business hours (M-F 8am-5pm PT)"⟩, db)
      else if startsAt.Minute % 30 ≠ 0 then
        (⟨400, .error "Appointments must start at :00 or :30 minutes"⟩, db)
      else if endsAt.Sub startsAt ≠ duration then
        (⟨400, .error "Appointments must be exactly 30 minutes long"⟩, db)
      else
        let appointment : Appointment :=
          { ID := 0, TrainerID := req.TrainerID, UserID := req.UserID,
            StartsAt := startsAt.UTC, EndsAt := endsAt.UTC }
        match db.Create appointment with
        | .error .uniqueViolation => (⟨409, .error "Appointment slot is already booked"⟩, db)
        | .error .other => (⟨500, .error "Failed to create appointment"⟩, db)
        | .ok (appointment, db1) =>
          (⟨201, .appointment appointment.ID appointment.TrainerID appointment.UserID
              (appointment.StartsAt.In env.pacificTZ) (appointment.EndsAt.In env.pacificTZ)⟩, db1)
    | _, _ => (⟨400, .error "Invalid date format for starts_at or ends_at"⟩, db)

/-- Go: `Handler.GetScheduledAppointments`; `trainerID` is `c.Param("trainer_id")`. -/
def GetScheduledAppointments (env : Env) (db : DB) (trainerID : String) : Response :=
  if trainerID = "" then
    ⟨400, .error "Missing required query parameters: trainer_id"⟩
  else
    match db.FindByTrainer env trainerID with
    | .error _ => ⟨500, .error "Failed to fetch appointments"⟩
    | .ok appointments =>
      ⟨200, .appointments (appointments.map fun apt =>
        { apt with StartsAt := apt.StartsAt.In env.pacificTZ,
                   EndsAt := apt.EndsAt.In env.pacificTZ })⟩

/-- The slots of a response, when it carries any. -/
def Response.slots (r : Response) : List AvailableSlot :=
  match r.body with
  | .slots response => response
  | _ => []

/-- The table of `TestGetAvailableAppointments`: one appointment of trainer 1 at
09:00 Pacific time on 2019-01-24. -/
def testDB : DB :=
  ⟨[{ ID := 1, TrainerID := 1, UserID := 100,
      StartsAt := Date 2019 1 24 9 0 0 (-28800), EndsAt := Date 2019 1 24 9 30 0 (-28800) }]⟩

/-! ## Closed form of the loop -/

/-- Number of cursor positions the loop visits between two instants: the least
`n` with `s + n * duration ≥ e`. -/
def cursorCount (s e : Int) : Nat := ((e - s + (duration - 1)) / duration).toNat

/-- The cursor after `k` steps from `startsAt`. -/
def cursor (startsAt : Time) (k : Nat) : Time := ⟨startsAt.ns + k * duration, startsAt.loc⟩

/-- The slot emitted at the `k`-th cursor. -/
def slotAt (startsAt : Time) (k : Nat) : AvailableSlot :=
  ⟨cursor startsAt k, (cursor startsAt k).Add duration⟩

/-- The test the loop applies to a cursor. -/
def isFree (pacificTZ : Location) (bookedTimes : List Int) (current : Time) : Bool :=
  isBusinessHours pacificTZ current && !bookedTimes.contains current.UTC.Format

/-- The slot as the handler renders it. -/
def render (pacificTZ : Location) (slot : AvailableSlot) : AvailableSlot :=
  ⟨slot.StartsAt.In pacificTZ, slot.EndsAt.In pacificTZ⟩

/-- The instant `x`, in nanoseconds since the epoch, as a time in UTC. -/
def instant (x : Int) : Time := ⟨x, Location.UTC⟩

/-- The rows `GetAvailableAppointments` fetches for trainer `T` and the range from
`s` to `e`. -/
def bookedRows (db : DB) (T : Int) (s e : Time) : List Appointment :=
  db.rows.filter fun apt =>
    decide (apt.TrainerID = T) && decide (apt.StartsAt.ns ≥ s.UTC.ns) &&
      decide (apt.StartsAt.ns < e.UTC.ns)

/-- The keys of the map `bookedTimes` built from the fetched rows. -/
def bookedKeys (db : DB) (T : Int) (s e : Time) : List Int :=
  (bookedRows db T s e).map fun apt => apt.StartsAt.UTC.Format

/-- No two rows have the same trainer and the same start instant. -/
def DB.Unique (db : DB) : Prop :=
  db.rows.Pairwise fun a b => ¬ (a.TrainerID = b.TrainerID ∧ a.StartsAt.ns = b.StartsAt.ns)

/-- Every row spans exactly `duration`. -/
def DB.HalfHours (db : DB) : Prop :=
  ∀ apt ∈ db.rows, apt.EndsAt.ns - apt.StartsAt.ns = duration

/-- The table left by a booking of trainer 1 from 09:00:00.5 to 09:30:00.5
Pacific time on 2019-01-24, made on an empty table. -/
def halfSecondDB : DB :=
  (CreateAppointment example2019 ⟨[]⟩
    (.ok ⟨1, 100, "2019-01-24T09:00:00.5-08:00", "2019-01-24T09:30:00.5-08:00"⟩)).2

/-- The response to a timestamp that does not parse. -/
def formatError : Response := ⟨400, .error "Invalid date format for starts_at or ends_at"⟩

/-- The response to a start outside business hours. -/
def outsideHoursError : Response :=
  ⟨400, .error "Appointments must be during business hours (M-F 8am-5pm PT)"⟩

/-- The response to a start off the half-hour marks. -/
def alignmentError : Response := ⟨400, .error "Appointments must start at :00 or :30 minutes"⟩

/-- The response to a span other than thirty minutes. -/
def durationError : Response := ⟨400, .error "Appointments must be exactly 30 minutes long"⟩

/-- The response to a refused insert. -/
def conflictError : Response := ⟨409, .error "Appointment slot is already booked"⟩

/-- The response of `GetAvailableAppointments` to an absent query parameter. -/
def missingError : Response :=
  ⟨400, .error "Missing required query parameters: trainer_id, starts_at, ends_at"⟩

/-- The response to a failed fetch. -/
def fetchError : Response := ⟨500, .error "Failed to fetch appointments"⟩

/-- Number of cursor positions at which the body of the loop of
`GetAvailableAppointments` runs: the loop of `walk`, counting its iterations. -/
def walkVisits (endsAt : Time) : Nat → Time → Nat
  | 0, _ => 0
  | fuel + 1, current =>
    if current.Before endsAt then walkVisits endsAt fuel (current.Add duration) + 1 else 0

/-! ## The middleware -/

/-- Whether the characters `lead` open the characters `s`. -/
def startsWith : List Char → List Char → Bool
  | [], _ => true
  | _ :: _, [] => false
  | a :: l, b :: s => a == b && startsWith l s

/-- Go: `strings.HasPrefix(s, lead)`. -/
def HasPrefix (s lead : String) : Bool := startsWith lead.data s.data

/-- Go: `strings.TrimPrefix(s, lead)`. -/
def TrimPrefix (s lead : String) : String :=
  if HasPrefix s lead then ⟨s.data.drop lead.data.length⟩ else s

/-- What a middleware does with the request: `c.AbortWithStatus(code)` or
`c.Next()`. -/
inductive Gate where
  | AbortWithStatus (code : Nat)
  | Next

/-- Go: `AuthMiddleware`. `serviceToken` is `os.Getenv("SERVICE_TOKEN")` and
`authorization` is `c.GetHeader("Authorization")`, empty when the header is
absent. -/
def AuthMiddleware (serviceToken authorization : String) : Gate :=
  let token := authorization
  if token = "" ∨ (HasPrefix token "Bearer ") = false then .AbortWithStatus 401
  else
    let token := TrimPrefix token "Bearer "
    if token ≠ serviceToken then .AbortWithStatus 401 else .Next

/-- The chain set up by `router.Use(AuthMiddleware)` and a route: the handler
runs when the middleware calls `c.Next()`; after `c.AbortWithStatus(code)` the
answer is the bare status `code`, and the handler does not run. -/
def serve (serviceToken authorization : String) (handler : DB → Response × DB) (db : DB) :
    Except Nat (Response × DB) :=
  match AuthMiddleware serviceToken authorization with
  | .AbortWithStatus code => .error code
  | .Next => .ok (handler db)

/-- The entry `GetScheduledAppointments` writes for a row: its key, trainer and
user, and its two instants read in the reference zone. -/
def entry (pacificTZ : Location) (apt : Appointment) : Appointment :=
  { apt with StartsAt := apt.StartsAt.In pacificTZ, EndsAt := apt.EndsAt.In pacificTZ }

/-- The table of `TestGetScheduledAppointments`: one appointment of trainer 1 from
17:00 to 17:30 UTC on 2019-01-24. -/
def scheduledTestDB : DB :=
  ⟨[{ ID := 1, TrainerID := 1, UserID := 100,
      StartsAt := Date 2019 1 24 17 0 0 0, EndsAt := Date 2019 1 24 17 30 0 0 }]⟩

/-! ## Basic facts -/

theorem duration_eq : duration = 1800000000000 := by decide

theorem Second_eq : Second = 1000000000 := rfl

theorem cursor_zero (c : Time) : cursor c 0 = c := by
  cases c; simp [cursor]

theorem cursor_succ (c : Time) (k : Nat) : cursor c (k + 1) = cursor (c.Add duration) k := by
  simp only [cursor, Time.Add, Time.mk.injEq, and_true]
  push_cast; ring

theorem cursorCount_of_before (c e : Int) (h : c < e) :
    cursorCount c e = cursorCount (c + duration) e + 1 := by
  simp only [cursorCount, duration_eq]
  omega

theorem cursorCount_of_not_before (c e : Int) (h : ¬ c < e) : cursorCount c e = 0 := by
  simp only [cursorCount, duration_eq]
  omega

theorem cursorCount_le (s e : Int) : cursorCount s e ≤ (e - s).toNat := by
  simp only [cursorCount, duration_eq]
  omega

/-- With enough fuel the loop emits the slots of the free cursors, in order. -/
theorem walk_eq (pacificTZ : Location) (bookedTimes : List Int) (e : Time) :
    ∀ (fuel : Nat) (c : Time), cursorCount c.ns e.ns ≤ fuel →
      walk pacificTZ bookedTimes e fuel c =
        ((List.range (cursorCount c.ns e.ns)).filter
          (fun k => isFree pacificTZ bookedTimes (cursor c k))).map (slotAt c) := by
  intro fuel
  induction fuel with
  | zero =>
    intro c h
    have h0 : cursorCount c.ns e.ns = 0 := by omega
    simp [walk, h0]
  | succ fuel ih =>
    intro c h
    by_cases hlt : c.ns < e.ns
    · have hc := cursorCount_of_before c.ns e.ns hlt
      have hfuel : cursorCount (c.Add duration).ns e.ns ≤ fuel := by
        simp only [Time.Add]; omega
      have hrec := ih (c.Add duration) hfuel
      have hns : (c.Add duration).ns = c.ns + duration := rfl
      rw [hns] at hrec
      have hfun : (slotAt c ∘ Nat.succ) = slotAt (c.Add duration) := by
        funext k
        simp only [Function.comp, slotAt, Nat.succ_eq_add_one, cursor_succ]
      have hfun2 : ((fun k => isFree pacificTZ bookedTimes (cursor c k)) ∘ Nat.succ) =
          fun k => isFree pacificTZ bookedTimes (cursor (c.Add duration) k) := by
        funext k
        simp only [Function.comp, Nat.succ_eq_add_one, cursor_succ]
      have htail : ((List.map Nat.succ (List.range (cursorCount (c.ns + duration) e.ns))).filter
          (fun k => isFree pacificTZ bookedTimes (cursor c k))).map (slotAt c) =
          walk pacificTZ bookedTimes e fuel (c.Add duration) := by
        rw [List.filter_map, List.map_map, hfun, hfun2, ← hrec]
      rw [hc, List.range_succ_eq_map, List.filter_cons]
      by_cases hfree : isFree pacificTZ bookedTimes (cursor c 0) = true
      · rw [if_pos hfree, List.map_cons, htail]
        rw [cursor_zero] at hfree
        have hfree2 := hfree
        simp only [isFree] at hfree2
        simp only [walk, Time.Before, hlt, decide_True, if_true, hfree2, slotAt, cursor_zero]
      · rw [if_neg hfree, htail]
        rw [cursor_zero] at hfree
        have hfree2 := hfree
        simp only [isFree] at hfree2
        simp only [walk, Time.Before, hlt, decide_True, if_true, hfree2]
        simp
    · have h0 := cursorCount_of_not_before c.ns e.ns hlt
      simp [walk, Time.Before, hlt, h0]

/-- The response of `GetAvailableAppointments` to a well-formed query: status 200
and the rendered slots of the free cursors, in order. -/
theorem GetAvailableAppointments_ok (env : Env) (db : DB) (q : Query) (T : Int) (s e : Time)
    (h1 : q.trainer_id ≠ "") (h2 : q.starts_at ≠ "") (h3 : q.ends_at ≠ "")
    (hs : env.Parse q.starts_at = some s) (he : env.Parse q.ends_at = some e)
    (hT : env.int8 q.trainer_id = some T) :
    GetAvailableAppointments env db q =
      ⟨200, .slots ((((List.range (cursorCount s.ns e.ns)).filter
        (fun k => isFree env.pacificTZ (bookedKeys db T s e) (cursor s k))).map (slotAt s)).map
          (render env.pacificTZ))⟩ := by
  have hw := walk_eq env.pacificTZ (bookedKeys db T s e) e (e.ns - s.ns).toNat s
    (cursorCount_le s.ns e.ns)
  simp only [GetAvailableAppointments, h1, h2, h3, or_self, if_false, hs, he, DB.FindBooked, hT]
  simp only [bookedKeys, bookedRows] at hw
  rw [hw]
  rfl

theorem lt_cursorCount_iff (s e : Int) (k : Nat) :
    k < cursorCount s e ↔ s + k * duration < e := by
  simp only [cursorCount, duration_eq]
  omega

theorem isBusinessHours_cursor (pacificTZ : Location) (s : Time) (k : Nat) :
    isBusinessHours pacificTZ (cursor s k) =
      isBusinessHours pacificTZ (instant (s.ns + k * duration)) := rfl

/-- A cursor passes the loop's test when it is in business hours and no fetched
row starts within the same Unix second. -/
theorem isFree_iff (pacificTZ : Location) (db : DB) (T : Int) (s e : Time) (k : Nat) :
    isFree pacificTZ (bookedKeys db T s e) (cursor s k) = true ↔
      isBusinessHours pacificTZ (instant (s.ns + k * duration)) = true ∧
        ¬ ∃ apt ∈ db.rows, apt.TrainerID = T ∧ s.ns ≤ apt.StartsAt.ns ∧
          apt.StartsAt.ns < e.ns ∧
          apt.StartsAt.ns / Second = (s.ns + k * duration) / Second := by
  simp only [isFree, isBusinessHours_cursor, Bool.and_eq_true, Bool.not_eq_true',
    bookedKeys, bookedRows, Time.UTC, Time.Format, Time.Unix, cursor]
  constructor
  · rintro ⟨hb, hk⟩
    refine ⟨hb, ?_⟩
    rintro ⟨apt, hmem, hT, hlo, hhi, hkey⟩
    have : (List.map (fun apt : Appointment => apt.StartsAt.ns / Second)
        (List.filter (fun apt : Appointment => decide (apt.TrainerID = T) &&
          decide (apt.StartsAt.ns ≥ s.ns) && decide (apt.StartsAt.ns < e.ns)) db.rows)).contains
        ((s.ns + k * duration) / Second) = true := by
      rw [List.contains_iff_exists_mem_beq]
      refine ⟨apt.StartsAt.ns / Second, ?_, by simp [hkey]⟩
      rw [List.mem_map]
      refine ⟨apt, ?_, rfl⟩
      rw [List.mem_filter]
      exact ⟨hmem, by simp [hT, hlo, hhi]⟩
    rw [this] at hk
    exact absurd hk (by simp)
  · rintro ⟨hb, hk⟩
    refine ⟨hb, ?_⟩
    by_contra hc
    apply hk
    have hc2 := (Bool.not_eq_false _).mp hc
    rw [List.contains_iff_exists_mem_beq] at hc2
    obtain ⟨v, hv, hbeq⟩ := hc2
    rw [List.mem_map] at hv
    obtain ⟨apt, hapt, rfl⟩ := hv
    rw [List.mem_filter] at hapt
    obtain ⟨hmem, hcond⟩ := hapt
    simp only [Bool.and_eq_true, decide_eq_true_eq, ge_iff_le] at hcond
    refine ⟨apt, hmem, hcond.1.1, hcond.1.2, hcond.2, ?_⟩
    exact (beq_iff_eq.mp hbeq).symm

theorem isBusinessHours_eq_true_iff (pacificTZ : Location) (t : Time) :
    isBusinessHours pacificTZ t = true ↔
      (1 ≤ (t.In pacificTZ).Weekday ∧ (t.In pacificTZ).Weekday ≤ 5) ∧
        8 ≤ (t.In pacificTZ).Hour ∧ (t.In pacificTZ).Hour < 17 := by
  simp only [isBusinessHours, Saturday, Sunday, startHour, endHour, Bool.and_eq_true,
    bne_iff_ne, ne_eq, decide_eq_true_eq, Time.Weekday]
  omega

/-- From 08:00 on a working day, in a zone whose offset stays put over the next
eighteen half hours, each of these half hours starts in business hours. -/
theorem cursor_in_hours (pacificTZ : Location) (s : Time)
    (hday : 1 ≤ (s.In pacificTZ).Weekday ∧ (s.In pacificTZ).Weekday ≤ 5)
    (h8 : (s.In pacificTZ).abs % 86400 = 28800)
    (hz : ∀ k : Nat, k < 18 →
      pacificTZ.lookup (s.Unix + 1800 * k) = pacificTZ.lookup s.Unix)
    (k : Nat) (hk : k < 18) : isBusinessHours pacificTZ (cursor s k) = true := by
  rw [isBusinessHours_eq_true_iff]
  have hzk := hz k hk
  simp only [Time.Weekday, Time.Hour, Time.abs, Time.Unix, Time.In, cursor, Second_eq,
    duration_eq] at *
  have hu : (s.ns + (k : Int) * 1800000000000) / 1000000000 =
      s.ns / 1000000000 + 1800 * (k : Int) := by omega
  rw [hu, hzk]
  omega

/-- The Los Angeles rule keeps its offset from 08:00 local time through the
next eighteen half hours, on every day. -/
theorem losAngeles_steady (u : Int) (h8 : (u + losAngeles.lookup u) % 86400 = 28800)
    (k : Nat) (hk : k < 18) : losAngeles.lookup (u + 1800 * k) = losAngeles.lookup u := by
  simp only [losAngeles] at h8 ⊢
  have hday : (u + 1800 * (k : Int) - 28800) / 86400 = (u - 28800) / 86400 := by
    split at h8 <;> omega
  rw [hday]
  generalize nthSunday (yearOfDay ((u - 28800) / 86400)) 3 2 = a at h8 ⊢
  generalize nthSunday (yearOfDay ((u - 28800) / 86400)) 11 1 = b at h8 ⊢
  split at h8 <;> split <;> omega

/-! ## Business hours (C1) -/

/-- C1: `isBusinessHours` holds of an instant exactly when, read in the reference
zone, its weekday is Monday to Friday and its hour `h` satisfies `8 ≤ h < 17`;
minutes play no part. In the Los Angeles zone, Thursday 2019-01-24 is in hours at
08:00, 16:30 and 16:45 and out of hours at 07:59 and 17:00, and Sunday
2019-01-20 is out of hours at every hour. -/
theorem isBusinessHours_iff_weekday_and_hour :
    (∀ (pacificTZ : Location) (t : Time),
      isBusinessHours pacificTZ t = true ↔
        (1 ≤ (t.In pacificTZ).Weekday ∧ (t.In pacificTZ).Weekday ≤ 5) ∧
          8 ≤ (t.In pacificTZ).Hour ∧ (t.In pacificTZ).Hour < 17) ∧
    ((Date 2019 1 24 8 0 0 (-28800)).In losAngeles).Weekday = 4 ∧
    ((Date 2019 1 24 8 0 0 (-28800)).In losAngeles).Hour = 8 ∧
    ((Date 2019 1 24 8 0 0 (-28800)).In losAngeles).Minute = 0 ∧
    isBusinessHours losAngeles (Date 2019 1 24 8 0 0 (-28800)) = true ∧
    isBusinessHours losAngeles (Date 2019 1 24 16 30 0 (-28800)) = true ∧
    isBusinessHours losAngeles (Date 2019 1 24 16 45 0 (-28800)) = true ∧
    isBusinessHours losAngeles (Date 2019 1 24 7 59 0 (-28800)) = false ∧
    isBusinessHours losAngeles (Date 2019 1 24 17 0 0 (-28800)) = false ∧
    ((Date 2019 1 20 0 0 0 (-28800)).In losAngeles).Weekday = Sunday ∧
    (∀ hh : Fin 24,
      (((Date 2019 1 20 hh.val 0 0 (-28800)).In losAngeles).Hour = hh.val ∧
        isBusinessHours losAngeles (Date 2019 1 20 hh.val 0 0 (-28800)) = false ∧
        isBusinessHours losAngeles (Date 2019 1 20 hh.val 59 59 (-28800)) = false)) := by
  refine ⟨?_, by decide, by decide, by decide, by decide, by decide, by decide, by decide,
    by decide, by decide, by decide⟩
  exact isBusinessHours_eq_true_iff

/-! ## The slots of `GetAvailableAppointments` (C2) -/

/-- C2, as stated, fails: after a booking of trainer 1 at 09:00:00.5 Pacific time
(admitted with status 201), the range from 09:00:00 to 09:30:00 has no slot at
its first cursor 09:00:00, although that cursor is on the grid, before the end,
in business hours, and no appointment of trainer 1 starts at that instant. -/
theorem slot_iff_no_equal_instant_fails :
    (CreateAppointment example2019 ⟨[]⟩
      (.ok ⟨1, 100, "2019-01-24T09:00:00.5-08:00", "2019-01-24T09:30:00.5-08:00"⟩)).1.status = 201 ∧
    parseRFC3339 "2019-01-24T09:00:00-08:00" =
      some ⟨1548349200000000000, FixedZone (-28800)⟩ ∧
    parseRFC3339 "2019-01-24T09:30:00-08:00" =
      some ⟨1548351000000000000, FixedZone (-28800)⟩ ∧
    ¬ ((∃ slot ∈ (GetAvailableAppointments example2019 halfSecondDB
          ⟨"1", "2019-01-24T09:00:00-08:00", "2019-01-24T09:30:00-08:00"⟩).slots,
          slot.StartsAt.ns = 1548349200000000000) ↔
        ((∃ k : Nat, (1548349200000000000 : Int) = 1548349200000000000 + k * duration) ∧
          (1548349200000000000 : Int) < 1548351000000000000 ∧
          isBusinessHours losAngeles (instant 1548349200000000000) = true ∧
          ¬ ∃ apt ∈ halfSecondDB.rows, apt.TrainerID = 1 ∧
            apt.StartsAt.ns = 1548349200000000000)) := by
  refine ⟨by decide, rfl, rfl, ?_⟩
  intro h
  have hlen : (GetAvailableAppointments example2019 halfSecondDB
      ⟨"1", "2019-01-24T09:00:00-08:00", "2019-01-24T09:30:00-08:00"⟩).slots.length = 0 := by
    decide
  have hnil := List.length_eq_zero.mp hlen
  have hrhs : ((∃ k : Nat, (1548349200000000000 : Int) = 1548349200000000000 + k * duration) ∧
      (1548349200000000000 : Int) < 1548351000000000000 ∧
      isBusinessHours losAngeles (instant 1548349200000000000) = true ∧
      ¬ ∃ apt ∈ halfSecondDB.rows, apt.TrainerID = 1 ∧
        apt.StartsAt.ns = 1548349200000000000) :=
    ⟨⟨0, by simp⟩, by decide, by decide, by decide⟩
  obtain ⟨slot, hslot, _⟩ := h.mpr hrhs
  rw [hnil] at hslot
  exact absurd hslot (List.not_mem_nil _)

/-- C2, amended: on a well-formed query the handler answers 200 with a list that
has a slot starting at instant `x` exactly when `x` is `rangeStart` plus a whole
number of half hours, `x` is before `rangeEnd`, `x` is in business hours, and no
appointment of the trainer that starts within the range starts in the same
Unix second as `x`. No start instant occurs twice, and every slot runs from its
start to thirty minutes later, read in the reference zone. -/
theorem slot_iff_free_cursor (env : Env) (db : DB) (q : Query) (T : Int) (s e : Time)
    (h1 : q.trainer_id ≠ "") (h2 : q.starts_at ≠ "") (h3 : q.ends_at ≠ "")
    (hs : env.Parse q.starts_at = some s) (he : env.Parse q.ends_at = some e)
    (hT : env.int8 q.trainer_id = some T) :
    ∃ slots : List AvailableSlot,
      GetAvailableAppointments env db q = ⟨200, .slots slots⟩ ∧
      (∀ x : Int, (∃ slot ∈ slots, slot.StartsAt.ns = x) ↔
        ((∃ k : Nat, x = s.ns + k * duration) ∧ x < e.ns ∧
          isBusinessHours env.pacificTZ (instant x) = true ∧
          ¬ ∃ apt ∈ db.rows, apt.TrainerID = T ∧ s.ns ≤ apt.StartsAt.ns ∧
            apt.StartsAt.ns < e.ns ∧ apt.StartsAt.ns / Second = x / Second)) ∧
      (slots.map fun slot => slot.StartsAt.ns).Nodup ∧
      (∀ slot ∈ slots, slot =
        ⟨(instant slot.StartsAt.ns).In env.pacificTZ,
          (instant (slot.StartsAt.ns + duration)).In env.pacificTZ⟩) := by
  refine ⟨_, GetAvailableAppointments_ok env db q T s e h1 h2 h3 hs he hT, ?_, ?_, ?_⟩
  · intro x
    simp only [List.mem_map, List.mem_filter, List.mem_range, exists_exists_and_eq_and,
      lt_cursorCount_iff, isFree_iff]
    constructor
    · rintro ⟨k, ⟨hk, hb, hn⟩, rfl⟩
      exact ⟨⟨k, rfl⟩, hk, hb, hn⟩
    · rintro ⟨⟨k, rfl⟩, hk, hb, hn⟩
      exact ⟨k, ⟨hk, hb, hn⟩, rfl⟩
  · rw [List.map_map, List.map_map]
    refine List.Nodup.map ?_ (List.Nodup.filter _ (List.nodup_range _))
    intro a b hab
    simp only [Function.comp, render, slotAt, cursor, Time.In, duration_eq] at hab
    omega
  · intro slot hslot
    simp only [List.mem_map, exists_exists_and_eq_and] at hslot
    obtain ⟨k, _, rfl⟩ := hslot
    rfl

/-- C2, amended, on the test table of the repository: trainer 1, booked at 09:00
Pacific time on 2019-01-24, queried from 08:00 to 17:00 that day. -/
theorem slot_iff_free_cursor_dated :
    ∃ slots : List AvailableSlot,
      GetAvailableAppointments example2019 testDB
        ⟨"1", "2019-01-24T08:00:00-08:00", "2019-01-24T17:00:00-08:00"⟩ = ⟨200, .slots slots⟩ ∧
      (∀ x : Int, (∃ slot ∈ slots, slot.StartsAt.ns = x) ↔
        ((∃ k : Nat, x = 1548345600000000000 + k * duration) ∧ x < 1548378000000000000 ∧
          isBusinessHours losAngeles (instant x) = true ∧
          ¬ ∃ apt ∈ testDB.rows, apt.TrainerID = 1 ∧ 1548345600000000000 ≤ apt.StartsAt.ns ∧
            apt.StartsAt.ns < 1548378000000000000 ∧ apt.StartsAt.ns / Second = x / Second)) ∧
      (slots.map fun slot => slot.StartsAt.ns).Nodup ∧
      (∀ slot ∈ slots, slot =
        ⟨(instant slot.StartsAt.ns).In losAngeles,
          (instant (slot.StartsAt.ns + duration)).In losAngeles⟩) :=
  slot_iff_free_cursor example2019 testDB
    ⟨"1", "2019-01-24T08:00:00-08:00", "2019-01-24T17:00:00-08:00"⟩ 1
    ⟨1548345600000000000, FixedZone (-28800)⟩ ⟨1548378000000000000, FixedZone (-28800)⟩
    (by decide) (by decide) (by decide) rfl rfl rfl

/-! ## Order of the checks of `CreateAppointment` (C3) -/

theorem CreateAppointment_unparsed (env : Env) (db : DB) (req : CreateRequest)
    (h : env.Parse req.StartsAt = none ∨ env.Parse req.EndsAt = none) :
    CreateAppointment env db (.ok req) = (formatError, db) := by
  simp only [CreateAppointment, formatError]
  rcases h with h | h
  · rw [h]
  · rw [h]
    cases env.Parse req.StartsAt <;> rfl

theorem CreateAppointment_outside (env : Env) (db : DB) (req : CreateRequest) (s e : Time)
    (hs : env.Parse req.StartsAt = some s) (he : env.Parse req.EndsAt = some e)
    (hb : isBusinessHours env.pacificTZ s = false) :
    CreateAppointment env db (.ok req) = (outsideHoursError, db) := by
  simp [CreateAppointment, outsideHoursError, hs, he, hb]

theorem CreateAppointment_misaligned (env : Env) (db : DB) (req : CreateRequest) (s e : Time)
    (hs : env.Parse req.StartsAt = some s) (he : env.Parse req.EndsAt = some e)
    (hb : isBusinessHours env.pacificTZ s = true) (ha : s.Minute % 30 ≠ 0) :
    CreateAppointment env db (.ok req) = (alignmentError, db) := by
  simp [CreateAppointment, alignmentError, hs, he, hb, ha]

theorem CreateAppointment_wrong_span (env : Env) (db : DB) (req : CreateRequest) (s e : Time)
    (hs : env.Parse req.StartsAt = some s) (he : env.Parse req.EndsAt = some e)
    (hb : isBusinessHours env.pacificTZ s = true) (ha : s.Minute % 30 = 0)
    (hd : e.Sub s ≠ duration) :
    CreateAppointment env db (.ok req) = (durationError, db) := by
  simp [CreateAppointment, durationError, hs, he, hb, ha, hd]

/-- The outcome of a request that passes the four checks is that of the insert. -/
theorem CreateAppointment_valid (env : Env) (db : DB) (req : CreateRequest) (s e : Time)
    (hs : env.Parse req.StartsAt = some s) (he : env.Parse req.EndsAt = some e)
    (hb : isBusinessHours env.pacificTZ s = true) (ha : s.Minute % 30 = 0)
    (hd : e.Sub s = duration) :
    CreateAppointment env db (.ok req) =
      if db.rows.any (fun apt => decide (apt.TrainerID = req.TrainerID) &&
          decide (apt.StartsAt.ns = s.ns)) then (conflictError, db)
      else
        (⟨201, .appointment db.nextID req.TrainerID req.UserID
            (s.UTC.In env.pacificTZ) (e.UTC.In env.pacificTZ)⟩,
          ⟨db.rows ++ [{ ID := db.nextID, TrainerID := req.TrainerID, UserID := req.UserID,
                         StartsAt := s.UTC, EndsAt := e.UTC }]⟩) := by
  by_cases hany : db.rows.any (fun apt => decide (apt.TrainerID = req.TrainerID) &&
      decide (apt.StartsAt.ns = s.ns)) = true
  · simp [CreateAppointment, hs, he, hb, ha, hd, DB.Create, conflictError, Time.UTC, hany]
  · simp [CreateAppointment, hs, he, hb, ha, hd, DB.Create, conflictError, Time.UTC, hany]

/-- C3: the checks of `CreateAppointment` run in the order format, business
hours, alignment, duration, and the first that fails fixes the answer: an
unparsed timestamp gives the format error; a parsed start outside business hours
gives the outside-hours error whatever its minute and span; an in-hours start
whose minute is not 0 or 30 gives the alignment error whatever the span; a wrong
span gives the duration error when the three earlier checks pass, and the
duration error is given in no other case. The four answers differ pairwise. -/
theorem first_failing_check_decides (env : Env) (db : DB) (req : CreateRequest) :
    ((env.Parse req.StartsAt = none ∨ env.Parse req.EndsAt = none) →
      (CreateAppointment env db (.ok req)).1 = formatError) ∧
    (∀ s e : Time, env.Parse req.StartsAt = some s → env.Parse req.EndsAt = some e →
      (isBusinessHours env.pacificTZ s = false →
        (CreateAppointment env db (.ok req)).1 = outsideHoursError) ∧
      (isBusinessHours env.pacificTZ s = true → s.Minute % 30 ≠ 0 →
        (CreateAppointment env db (.ok req)).1 = alignmentError) ∧
      (isBusinessHours env.pacificTZ s = true → s.Minute % 30 = 0 → e.Sub s ≠ duration →
        (CreateAppointment env db (.ok req)).1 = durationError)) ∧
    ((CreateAppointment env db (.ok req)).1 = durationError →
      ∃ s e : Time, env.Parse req.StartsAt = some s ∧ env.Parse req.EndsAt = some e ∧
        isBusinessHours env.pacificTZ s = true ∧ s.Minute % 30 = 0 ∧ e.Sub s ≠ duration) ∧
    (formatError ≠ outsideHoursError ∧ formatError ≠ alignmentError ∧
      formatError ≠ durationError ∧ outsideHoursError ≠ alignmentError ∧
      outsideHoursError ≠ durationError ∧ alignmentError ≠ durationError) := by
  refine ⟨?_, ?_, ?_, ?_⟩
  · intro h
    rw [CreateAppointment_unparsed env db req h]
  · intro s e hs he
    refine ⟨?_, ?_, ?_⟩
    · intro hb
      rw [CreateAppointment_outside env db req s e hs he hb]
    · intro hb ha
      rw [CreateAppointment_misaligned env db req s e hs he hb ha]
    · intro hb ha hd
      rw [CreateAppointment_wrong_span env db req s e hs he hb ha hd]
  · intro h
    cases hs : env.Parse req.StartsAt with
    | none =>
      rw [CreateAppointment_unparsed env db req (Or.inl hs)] at h
      simp [formatError, durationError] at h
    | some s =>
      cases he : env.Parse req.EndsAt with
      | none =>
        rw [CreateAppointment_unparsed env db req (Or.inr he)] at h
        simp [formatError, durationError] at h
      | some e =>
        cases hb : isBusinessHours env.pacificTZ s with
        | false =>
          rw [CreateAppointment_outside env db req s e hs he hb] at h
          simp [outsideHoursError, durationError] at h
        | true =>
          by_cases ha : s.Minute % 30 = 0
          · by_cases hd : e.Sub s = duration
            · rw [CreateAppointment_valid env db req s e hs he hb ha hd] at h
              split at h
              · simp [conflictError, durationError] at h
              · simp [durationError] at h
            · exact ⟨s, e, rfl, rfl, hb, ha, hd⟩
          · rw [CreateAppointment_misaligned env db req s e hs he hb ha] at h
            simp [alignmentError, durationError] at h
  · simp [formatError, outsideHoursError, alignmentError, durationError]

/-- C3 on dated requests: a start at 06:15 with a span of one hour fails three
checks and is answered as outside business hours; a start at 09:15 with a span
of one hour is answered as misaligned; a start at 09:00 with a span of 45
minutes is answered as of wrong duration. -/
theorem first_failing_check_decides_dated :
    (CreateAppointment example2019 ⟨[]⟩
      (.ok ⟨1, 101, "2019-01-24T06:15:00-08:00", "2019-01-24T07:15:00-08:00"⟩)).1 =
        outsideHoursError ∧
    (CreateAppointment example2019 ⟨[]⟩
      (.ok ⟨1, 102, "2019-01-24T09:15:00-08:00", "2019-01-24T10:15:00-08:00"⟩)).1 =
        alignmentError ∧
    (CreateAppointment example2019 ⟨[]⟩
      (.ok ⟨1, 103, "2019-01-24T09:00:00-08:00", "2019-01-24T09:45:00-08:00"⟩)).1 =
        durationError :=
  ⟨((first_failing_check_decides example2019 ⟨[]⟩
      ⟨1, 101, "2019-01-24T06:15:00-08:00", "2019-01-24T07:15:00-08:00"⟩).2.1
      ⟨1548339300000000000, FixedZone (-28800)⟩ ⟨1548342900000000000, FixedZone (-28800)⟩
      rfl rfl).1 (by decide),
   ((first_failing_check_decides example2019 ⟨[]⟩
      ⟨1, 102, "2019-01-24T09:15:00-08:00", "2019-01-24T10:15:00-08:00"⟩).2.1
      ⟨1548350100000000000, FixedZone (-28800)⟩ ⟨1548353700000000000, FixedZone (-28800)⟩
      rfl rfl).2.1 (by decide) (by decide),
   ((first_failing_check_decides example2019 ⟨[]⟩
      ⟨1, 103, "2019-01-24T09:00:00-08:00", "2019-01-24T09:45:00-08:00"⟩).2.1
      ⟨1548349200000000000, FixedZone (-28800)⟩ ⟨1548351900000000000, FixedZone (-28800)⟩
      rfl rfl).2.2 (by decide) (by decide) (by decide)⟩

/-! ## The alignment check reads the written offset (C4) -/

/-- C4 fails on the code: `startsAt.Minute()` is read in the offset the caller
wrote, not in the reference zone. The start `2019-01-24T22:45:00+05:45` is the
instant 09:00 Pacific time of a Thursday, minute 0 in the reference zone, yet it
is answered with the alignment error, while the same instant written
`2019-01-24T09:00:00-08:00` is admitted. The start `2019-01-24T23:00:00+05:45`
is 09:15 Pacific time, minute 15 in the reference zone, and is admitted. -/
theorem alignment_read_in_written_offset :
    (parseRFC3339 "2019-01-24T22:45:00+05:45").map (fun t => t.ns) =
      (parseRFC3339 "2019-01-24T09:00:00-08:00").map (fun t => t.ns) ∧
    (parseRFC3339 "2019-01-24T22:45:00+05:45").map
      (fun t => (isBusinessHours losAngeles t, (t.In losAngeles).Hour,
        (t.In losAngeles).Minute, t.Minute)) = some (true, 9, 0, 45) ∧
    (CreateAppointment example2019 ⟨[]⟩
      (.ok ⟨1, 100, "2019-01-24T22:45:00+05:45", "2019-01-24T23:15:00+05:45"⟩)).1 =
        alignmentError ∧
    (CreateAppointment example2019 ⟨[]⟩
      (.ok ⟨1, 100, "2019-01-24T09:00:00-08:00", "2019-01-24T09:30:00-08:00"⟩)).1.status = 201 ∧
    (parseRFC3339 "2019-01-24T23:00:00+05:45").map
      (fun t => (isBusinessHours losAngeles t, (t.In losAngeles).Hour,
        (t.In losAngeles).Minute, t.Minute)) = some (true, 9, 15, 0) ∧
    (CreateAppointment example2019 ⟨[]⟩
      (.ok ⟨1, 100, "2019-01-24T23:00:00+05:45", "2019-01-24T23:30:00+05:45"⟩)).1.status = 201 := by
  refine ⟨by decide, by decide, ?_, by decide, by decide, by decide⟩
  have h := CreateAppointment_misaligned example2019 ⟨[]⟩
    ⟨1, 100, "2019-01-24T22:45:00+05:45", "2019-01-24T23:15:00+05:45"⟩
    ⟨1548349200000000000, FixedZone 20700⟩ ⟨1548351000000000000, FixedZone 20700⟩
    rfl rfl (by decide) (by decide)
  rw [h]

/-! ## Conflicts, spans and the effect on the table (C5, C6, C7) -/

theorem Sub_eq_duration_iff (e s : Time) : e.Sub s = duration ↔ e.ns - s.ns = duration := by
  simp only [Time.Sub, maxDuration, minDuration, duration_eq]
  split
  · omega
  · split <;> omega

/-- The three possible outcomes of `CreateAppointment`: a refusal with status 400
that does not depend on the table; a conflict, with the table unchanged; or an
insert of one row. -/
theorem CreateAppointment_cases (env : Env) (db : DB) (body : Except String CreateRequest) :
    (∃ r : Response, r.status = 400 ∧
      ∀ db1 : DB, CreateAppointment env db1 body = (r, db1)) ∨
    (∃ (req : CreateRequest) (s e : Time), body = .ok req ∧
      env.Parse req.StartsAt = some s ∧ env.Parse req.EndsAt = some e ∧
      isBusinessHours env.pacificTZ s = true ∧ s.Minute % 30 = 0 ∧ e.Sub s = duration ∧
      ((∃ apt ∈ db.rows, apt.TrainerID = req.TrainerID ∧ apt.StartsAt.ns = s.ns) ∧
        CreateAppointment env db body = (conflictError, db) ∨
       (¬ ∃ apt ∈ db.rows, apt.TrainerID = req.TrainerID ∧ apt.StartsAt.ns = s.ns) ∧
        CreateAppointment env db body =
          (⟨201, .appointment db.nextID req.TrainerID req.UserID
              (s.UTC.In env.pacificTZ) (e.UTC.In env.pacificTZ)⟩,
            ⟨db.rows ++ [{ ID := db.nextID, TrainerID := req.TrainerID,
                           UserID := req.UserID, StartsAt := s.UTC, EndsAt := e.UTC }]⟩))) := by
  cases body with
  | error err => exact Or.inl ⟨⟨400, .error err⟩, rfl, fun _ => rfl⟩
  | ok req =>
    cases hs : env.Parse req.StartsAt with
    | none =>
      exact Or.inl ⟨formatError, rfl, fun db1 =>
        CreateAppointment_unparsed env db1 req (Or.inl hs)⟩
    | some s =>
      cases he : env.Parse req.EndsAt with
      | none =>
        exact Or.inl ⟨formatError, rfl, fun db1 =>
          CreateAppointment_unparsed env db1 req (Or.inr he)⟩
      | some e =>
        cases hb : isBusinessHours env.pacificTZ s with
        | false =>
          exact Or.inl ⟨outsideHoursError, rfl, fun db1 =>
            CreateAppointment_outside env db1 req s e hs he hb⟩
        | true =>
          by_cases ha : s.Minute % 30 = 0
          · by_cases hd : e.Sub s = duration
            · refine Or.inr ⟨req, s, e, rfl, hs, he, hb, ha, hd, ?_⟩
              rw [CreateAppointment_valid env db req s e hs he hb ha hd]
              by_cases hany : ∃ apt ∈ db.rows, apt.TrainerID = req.TrainerID ∧
                  apt.StartsAt.ns = s.ns
              · refine Or.inl ⟨hany, ?_⟩
                rw [if_pos]
                simpa using hany
              · refine Or.inr ⟨hany, ?_⟩
                rw [if_neg]
                simpa using hany
            · exact Or.inl ⟨durationError, rfl, fun db1 =>
                CreateAppointment_wrong_span env db1 req s e hs he hb ha hd⟩
          · exact Or.inl ⟨alignmentError, rfl, fun db1 =>
              CreateAppointment_misaligned env db1 req s e hs he hb ha⟩

/-- The table keeps at most one row per trainer and start instant. -/
theorem CreateAppointment_unique (env : Env) (db : DB) (body : Except String CreateRequest)
    (hu : db.Unique) : (CreateAppointment env db body).2.Unique := by
  rcases CreateAppointment_cases env db body with ⟨r, _, h⟩ | ⟨req, s, e, _, _, _, _, _, _, h⟩
  · rw [h db]; exact hu
  · rcases h with ⟨_, h⟩ | ⟨hno, h⟩
    · rw [h]; exact hu
    · rw [h]
      simp only [DB.Unique] at hu ⊢
      rw [List.pairwise_append]
      refine ⟨hu, List.pairwise_singleton _ _, ?_⟩
      intro a ha b hb
      rw [List.mem_singleton] at hb
      subst hb
      rintro ⟨h1, h2⟩
      exact hno ⟨a, ha, h1, h2⟩

/-- Every row of the table keeps a span of thirty minutes. -/
theorem CreateAppointment_halfHours (env : Env) (db : DB) (body : Except String CreateRequest)
    (hh : db.HalfHours) : (CreateAppointment env db body).2.HalfHours := by
  rcases CreateAppointment_cases env db body with ⟨r, _, h⟩ | ⟨req, s, e, _, _, _, _, _, hd, h⟩
  · rw [h db]; exact hh
  · rcases h with ⟨_, h⟩ | ⟨_, h⟩
    · rw [h]; exact hh
    · rw [h]
      intro apt hapt
      simp only [List.mem_append, List.mem_singleton] at hapt
      rcases hapt with hapt | rfl
      · exact hh apt hapt
      · exact (Sub_eq_duration_iff e s).mp hd

/-- C5: for a request that passes the four checks, the answer is the conflict
response (409, `Appointment slot is already booked`) exactly when the table holds
a row with the same trainer and the same start instant, and then the table is
unchanged; when there is no such row the answer is 201 and the same request sent
again is answered with the conflict response and changes nothing. Whatever the
request, a table without two rows of equal trainer and start instant stays so. -/
theorem conflict_iff_same_trainer_and_start (env : Env) (db : DB) (req : CreateRequest)
    (s e : Time)
    (hs : env.Parse req.StartsAt = some s) (he : env.Parse req.EndsAt = some e)
    (hb : isBusinessHours env.pacificTZ s = true) (ha : s.Minute % 30 = 0)
    (hd : e.Sub s = duration) :
    ((CreateAppointment env db (.ok req)).1 = conflictError ↔
      ∃ apt ∈ db.rows, apt.TrainerID = req.TrainerID ∧ apt.StartsAt.ns = s.ns) ∧
    ((∃ apt ∈ db.rows, apt.TrainerID = req.TrainerID ∧ apt.StartsAt.ns = s.ns) →
      (CreateAppointment env db (.ok req)).2 = db) ∧
    ((¬ ∃ apt ∈ db.rows, apt.TrainerID = req.TrainerID ∧ apt.StartsAt.ns = s.ns) →
      (CreateAppointment env db (.ok req)).1.status = 201 ∧
      CreateAppointment env (CreateAppointment env db (.ok req)).2 (.ok req) =
        (conflictError, (CreateAppointment env db (.ok req)).2)) ∧
    (∀ body : Except String CreateRequest,
      db.Unique → (CreateAppointment env db body).2.Unique) := by
  have hv := CreateAppointment_valid env db req s e hs he hb ha hd
  refine ⟨?_, ?_, ?_, fun body hu => CreateAppointment_unique env db body hu⟩
  · by_cases hany : ∃ apt ∈ db.rows, apt.TrainerID = req.TrainerID ∧ apt.StartsAt.ns = s.ns
    · rw [hv, if_pos (by simpa using hany)]
      exact ⟨fun _ => hany, fun _ => rfl⟩
    · rw [hv, if_neg (by simpa using hany)]
      constructor
      · intro h
        simp [conflictError] at h
      · intro h
        exact absurd h hany
  · intro hany
    rw [hv, if_pos (by simpa using hany)]
  · intro hany
    rw [hv, if_neg (by simpa using hany)]
    refine ⟨rfl, ?_⟩
    rw [CreateAppointment_valid env _ req s e hs he hb ha hd, if_pos]
    simp [Time.UTC]

/-- C5 on the repository's test: the request from 09:00 to 09:30 Pacific time on
2019-01-24 passes the checks, is answered 201 on an empty table, and sent again
is answered with the conflict response, leaving one row. -/
theorem conflict_iff_same_trainer_and_start_dated :
    isBusinessHours losAngeles ⟨1548349200000000000, FixedZone (-28800)⟩ = true ∧
    (CreateAppointment example2019 ⟨[]⟩
      (.ok ⟨1, 100, "2019-01-24T09:00:00-08:00", "2019-01-24T09:30:00-08:00"⟩)).1.status = 201 ∧
    CreateAppointment example2019
        (CreateAppointment example2019 ⟨[]⟩
          (.ok ⟨1, 100, "2019-01-24T09:00:00-08:00", "2019-01-24T09:30:00-08:00"⟩)).2
        (.ok ⟨1, 100, "2019-01-24T09:00:00-08:00", "2019-01-24T09:30:00-08:00"⟩) =
      (conflictError,
        (CreateAppointment example2019 ⟨[]⟩
          (.ok ⟨1, 100, "2019-01-24T09:00:00-08:00", "2019-01-24T09:30:00-08:00"⟩)).2) ∧
    (CreateAppointment example2019 ⟨[]⟩
      (.ok ⟨1, 100, "2019-01-24T09:00:00-08:00", "2019-01-24T09:30:00-08:00"⟩)).2.rows.length = 1 :=
  ⟨by decide,
   ((conflict_iff_same_trainer_and_start example2019 ⟨[]⟩
      ⟨1, 100, "2019-01-24T09:00:00-08:00", "2019-01-24T09:30:00-08:00"⟩
      ⟨1548349200000000000, FixedZone (-28800)⟩ ⟨1548351000000000000, FixedZone (-28800)⟩
      rfl rfl (by decide) (by decide) (by decide)).2.2.1 (by simp)).1,
   ((conflict_iff_same_trainer_and_start example2019 ⟨[]⟩
      ⟨1, 100, "2019-01-24T09:00:00-08:00", "2019-01-24T09:30:00-08:00"⟩
      ⟨1548349200000000000, FixedZone (-28800)⟩ ⟨1548351000000000000, FixedZone (-28800)⟩
      rfl rfl (by decide) (by decide) (by decide)).2.2.1 (by simp)).2,
   by decide⟩

/-- C6: a request that passes the format, business-hours and alignment checks and
whose end is not exactly thirty minutes after its start is answered with the
duration error and leaves the table unchanged, whatever the sign of the span;
a request answered 201 appends one row, of span thirty minutes; and a table
all of whose rows span thirty minutes stays so after any request. -/
theorem span_is_thirty_minutes (env : Env) (db : DB) :
    (∀ (req : CreateRequest) (s e : Time),
      env.Parse req.StartsAt = some s → env.Parse req.EndsAt = some e →
      isBusinessHours env.pacificTZ s = true → s.Minute % 30 = 0 →
      e.ns - s.ns ≠ duration →
      CreateAppointment env db (.ok req) = (durationError, db)) ∧
    (∀ body : Except String CreateRequest,
      (CreateAppointment env db body).1.status = 201 →
      ∃ apt : Appointment, (CreateAppointment env db body).2.rows = db.rows ++ [apt] ∧
        apt.EndsAt.ns - apt.StartsAt.ns = duration) ∧
    (∀ body : Except String CreateRequest,
      db.HalfHours → (CreateAppointment env db body).2.HalfHours) := by
  refine ⟨?_, ?_, fun body hh => CreateAppointment_halfHours env db body hh⟩
  · intro req s e hs he hb ha hd
    exact CreateAppointment_wrong_span env db req s e hs he hb ha
      (fun h => hd ((Sub_eq_duration_iff e s).mp h))
  · intro body hst
    rcases CreateAppointment_cases env db body with ⟨r, hr, h⟩ | ⟨req, s, e, _, _, _, _, _, hd, h⟩
    · rw [h db] at hst
      simp only at hst
      omega
    · rcases h with ⟨_, h⟩ | ⟨_, h⟩
      · rw [h] at hst
        simp [conflictError] at hst
      · rw [h]
        exact ⟨_, rfl, (Sub_eq_duration_iff e s).mp hd⟩

/-- C6 on dated requests starting at 09:00 Pacific time on 2019-01-24: spans of 45
minutes, of 60 minutes, of zero and of minus thirty minutes are each answered
with the duration error, and the table is unchanged. -/
theorem span_is_thirty_minutes_dated :
    CreateAppointment example2019 testDB
      (.ok ⟨2, 103, "2019-01-24T09:00:00-08:00", "2019-01-24T09:45:00-08:00"⟩) =
        (durationError, testDB) ∧
    CreateAppointment example2019 testDB
      (.ok ⟨2, 103, "2019-01-24T17:00:00Z", "2019-01-24T18:00:00Z"⟩) =
        (durationError, testDB) ∧
    CreateAppointment example2019 testDB
      (.ok ⟨2, 103, "2019-01-24T09:00:00-08:00", "2019-01-24T09:00:00-08:00"⟩) =
        (durationError, testDB) ∧
    CreateAppointment example2019 testDB
      (.ok ⟨2, 103, "2019-01-24T09:00:00-08:00", "2019-01-24T08:30:00-08:00"⟩) =
        (durationError, testDB) :=
  ⟨(span_is_thirty_minutes example2019 testDB).1
      ⟨2, 103, "2019-01-24T09:00:00-08:00", "2019-01-24T09:45:00-08:00"⟩
      ⟨1548349200000000000, FixedZone (-28800)⟩ ⟨1548351900000000000, FixedZone (-28800)⟩
      rfl rfl (by decide) (by decide) (by decide),
   (span_is_thirty_minutes example2019 testDB).1
      ⟨2, 103, "2019-01-24T17:00:00Z", "2019-01-24T18:00:00Z"⟩
      ⟨1548349200000000000, Location.UTC⟩ ⟨1548352800000000000, Location.UTC⟩
      rfl rfl (by decide) (by decide) (by decide),
   (span_is_thirty_minutes example2019 testDB).1
      ⟨2, 103, "2019-01-24T09:00:00-08:00", "2019-01-24T09:00:00-08:00"⟩
      ⟨1548349200000000000, FixedZone (-28800)⟩ ⟨1548349200000000000, FixedZone (-28800)⟩
      rfl rfl (by decide) (by decide) (by decide),
   (span_is_thirty_minutes example2019 testDB).1
      ⟨2, 103, "2019-01-24T09:00:00-08:00", "2019-01-24T08:30:00-08:00"⟩
      ⟨1548349200000000000, FixedZone (-28800)⟩ ⟨1548347400000000000, FixedZone (-28800)⟩
      rfl rfl (by decide) (by decide) (by decide)⟩

/-- C7: when `CreateAppointment` answers with status 400 (binding, format,
business hours, alignment or duration), the table after the call is the table
before it, and the same answer is given on every table: it is reached without
consulting or writing the table. -/
theorem refusal_leaves_table (env : Env) (db : DB) (body : Except String CreateRequest)
    (h : (CreateAppointment env db body).1.status = 400) :
    (CreateAppointment env db body).2 = db ∧
    ∀ db1 : DB, CreateAppointment env db1 body = ((CreateAppointment env db body).1, db1) := by
  rcases CreateAppointment_cases env db body with ⟨r, _, hr⟩ | ⟨req, s, e, _, _, _, _, _, _, hc⟩
  · refine ⟨by rw [hr db], fun db1 => ?_⟩
    rw [hr db1, hr db]
  · rcases hc with ⟨_, hc⟩ | ⟨_, hc⟩
    · rw [hc] at h
      simp [conflictError] at h
    · rw [hc] at h
      simp at h

/-- C7 on the four refusals of a parsed or unparsed dated request, each on the
test table: format, business hours, alignment, duration. -/
theorem refusal_leaves_table_dated :
    (CreateAppointment example2019 testDB
      (.ok ⟨1, 101, "invalid", "2019-01-24T17:00:00"⟩)).2 = testDB ∧
    (CreateAppointment example2019 testDB
      (.ok ⟨1, 101, "2019-01-24T06:00:00-08:00", "2019-01-24T06:30:00-08:00"⟩)).2 = testDB ∧
    (CreateAppointment example2019 testDB
      (.ok ⟨1, 102, "2019-01-24T09:15:00-08:00", "2019-01-24T09:45:00-08:00"⟩)).2 = testDB ∧
    (CreateAppointment example2019 testDB
      (.ok ⟨1, 103, "2019-01-24T09:00:00-08:00", "2019-01-24T09:45:00-08:00"⟩)).2 = testDB :=
  ⟨(refusal_leaves_table example2019 testDB _ (by decide)).1,
   (refusal_leaves_table example2019 testDB _ (by decide)).1,
   (refusal_leaves_table example2019 testDB _ (by decide)).1,
   (refusal_leaves_table example2019 testDB _ (by decide)).1⟩

/-! ## A full business day (C8) -/

theorem cursorCount_day (s : Int) : cursorCount s (s + 18 * duration) = 18 := by
  simp only [cursorCount, duration_eq]
  omega

/-- C8: let `rangeStart` read 08:00:00 on a Monday-to-Friday day of the reference
zone, let `rangeEnd` be nine hours later, and let the zone keep its offset over
the eighteen half hours from `rangeStart`. Then the handler answers 200 with
exactly 18 slots when no appointment of the trainer starts in the range, and
with exactly 17 slots when exactly one does and it starts on one of the
eighteen half-hour instants. The Los Angeles rule keeps its offset over these
half hours on every day. -/
theorem full_day_slot_count :
    (∀ (env : Env) (db : DB) (q : Query) (T : Int) (s e : Time),
      q.trainer_id ≠ "" → q.starts_at ≠ "" → q.ends_at ≠ "" →
      env.Parse q.starts_at = some s → env.Parse q.ends_at = some e →
      env.int8 q.trainer_id = some T →
      (1 ≤ (s.In env.pacificTZ).Weekday ∧ (s.In env.pacificTZ).Weekday ≤ 5) →
      (s.In env.pacificTZ).abs % 86400 = 28800 →
      e.ns = s.ns + 18 * duration →
      (∀ k : Nat, k < 18 →
        env.pacificTZ.lookup (s.Unix + 1800 * k) = env.pacificTZ.lookup s.Unix) →
      ∃ slots : List AvailableSlot,
        GetAvailableAppointments env db q = ⟨200, .slots slots⟩ ∧
        (bookedRows db T s e = [] → slots.length = 18) ∧
        (∀ (apt : Appointment) (k0 : Nat), bookedRows db T s e = [apt] → k0 < 18 →
          apt.StartsAt.ns = s.ns + k0 * duration → slots.length = 17)) ∧
    (∀ (s : Time) (k : Nat), (s.In losAngeles).abs % 86400 = 28800 → k < 18 →
      losAngeles.lookup (s.Unix + 1800 * k) = losAngeles.lookup s.Unix) := by
  refine ⟨?_, fun s k h8 hk => losAngeles_steady s.Unix h8 k hk⟩
  intro env db q T s e h1 h2 h3 hs he hT hday h8 hend hz
  refine ⟨_, GetAvailableAppointments_ok env db q T s e h1 h2 h3 hs he hT, ?_, ?_⟩
  · intro hnone
    rw [List.length_map, List.length_map, hend, cursorCount_day]
    have hall : ∀ k ∈ List.range 18,
        isFree env.pacificTZ (bookedKeys db T s e) (cursor s k) = true := by
      intro k hk
      rw [List.mem_range] at hk
      simp [isFree, bookedKeys, hnone, cursor_in_hours env.pacificTZ s hday h8 hz k hk]
    rw [List.filter_eq_self.mpr hall]
    rfl
  · intro apt k0 hone hk0 hstart
    rw [List.length_map, List.length_map, hend, cursorCount_day]
    have hcongr : ∀ k ∈ List.range 18,
        isFree env.pacificTZ (bookedKeys db T s e) (cursor s k) = decide (k ≠ k0) := by
      intro k hk
      rw [List.mem_range] at hk
      have hkey : ((s.ns + (k : Int) * 1800000000000) / 1000000000 =
          (s.ns + (k0 : Int) * 1800000000000) / 1000000000) ↔ k = k0 := by
        constructor
        · intro h; omega
        · intro h; rw [h]
      rw [isFree, cursor_in_hours env.pacificTZ s hday h8 hz k hk]
      simp only [bookedKeys, hone, List.map_cons, List.map_nil, Time.UTC, Time.Format,
        Time.Unix, hstart, cursor, Second_eq, duration_eq, Bool.true_and, List.contains_cons,
        List.contains_nil, Bool.or_false, ne_eq, decide_not]
      by_cases hkk : k = k0 <;> simp [hkk, hkey]
    rw [List.filter_congr hcongr]
    interval_cases k0 <;> rfl

/-- C8 on the repository's test: on Thursday 2019-01-24 from 08:00 to 17:00
Pacific time, trainer 1, booked at 09:00, gets 17 slots, and trainer 2, without
bookings, gets 18. -/
theorem full_day_slot_count_dated :
    (∃ slots : List AvailableSlot,
      GetAvailableAppointments example2019 testDB
        ⟨"1", "2019-01-24T08:00:00-08:00", "2019-01-24T17:00:00-08:00"⟩ = ⟨200, .slots slots⟩ ∧
      slots.length = 17) ∧
    (∃ slots : List AvailableSlot,
      GetAvailableAppointments example2019 testDB
        ⟨"2", "2019-01-24T08:00:00-08:00", "2019-01-24T17:00:00-08:00"⟩ = ⟨200, .slots slots⟩ ∧
      slots.length = 18) := by
  constructor
  · obtain ⟨slots, h, _, h17⟩ := full_day_slot_count.1 example2019 testDB
      ⟨"1", "2019-01-24T08:00:00-08:00", "2019-01-24T17:00:00-08:00"⟩ 1
      ⟨1548345600000000000, FixedZone (-28800)⟩ ⟨1548378000000000000, FixedZone (-28800)⟩
      (by decide) (by decide) (by decide) rfl rfl rfl (by decide) (by decide) (by decide)
      (by decide)
    exact ⟨slots, h, h17 ⟨1, 1, 100, Date 2019 1 24 9 0 0 (-28800),
      Date 2019 1 24 9 30 0 (-28800)⟩ 2 rfl (by decide) (by decide)⟩
  · obtain ⟨slots, h, h18, _⟩ := full_day_slot_count.1 example2019 testDB
      ⟨"2", "2019-01-24T08:00:00-08:00", "2019-01-24T17:00:00-08:00"⟩ 2
      ⟨1548345600000000000, FixedZone (-28800)⟩ ⟨1548378000000000000, FixedZone (-28800)⟩
      (by decide) (by decide) (by decide) rfl rfl rfl (by decide) (by decide) (by decide)
      (by decide)
    exact ⟨slots, h, h18 rfl⟩

/-! ## Ranges outside business hours (C9) -/

/-- The Los Angeles rule gives the standard offset from 20 to 25 January 2019. -/
theorem losAngeles_january_2019 (sec : Int) (hlo : 1547971200 ≤ sec) (hhi : sec < 1548489600) :
    losAngeles.lookup sec = -28800 := by
  have hyear : yearOfDay ((sec - 28800) / 86400) = 2019 := by
    have h1 : 17916 ≤ (sec - 28800) / 86400 := by omega
    have h2 : (sec - 28800) / 86400 ≤ 17921 := by omega
    generalize (sec - 28800) / 86400 = d at h1 h2
    interval_cases d <;> decide
  have ha : nthSunday 2019 3 2 = 17965 := by decide
  simp only [losAngeles, hyear, ha]
  rw [if_neg]
  omega

/-- C9: when every instant of the range from `rangeStart` to `rangeEnd`, read in
the reference zone, falls on a Saturday or a Sunday, or has an hour below 8 or
of 17 and above, the handler answers 200 with the empty list, whatever the
width of the range, the trainer and the rows of the table. -/
theorem no_slot_outside_hours (env : Env) (db : DB) (q : Query) (T : Int) (s e : Time)
    (h1 : q.trainer_id ≠ "") (h2 : q.starts_at ≠ "") (h3 : q.ends_at ≠ "")
    (hs : env.Parse q.starts_at = some s) (he : env.Parse q.ends_at = some e)
    (hT : env.int8 q.trainer_id = some T)
    (hout : ∀ x : Int, s.ns ≤ x → x < e.ns →
      ((instant x).In env.pacificTZ).Weekday = Saturday ∨
      ((instant x).In env.pacificTZ).Weekday = Sunday ∨
      ((instant x).In env.pacificTZ).Hour < 8 ∨
      17 ≤ ((instant x).In env.pacificTZ).Hour) :
    GetAvailableAppointments env db q = ⟨200, .slots []⟩ := by
  rw [GetAvailableAppointments_ok env db q T s e h1 h2 h3 hs he hT]
  have hnone : (List.range (cursorCount s.ns e.ns)).filter
      (fun k => isFree env.pacificTZ (bookedKeys db T s e) (cursor s k)) = [] := by
    rw [List.filter_eq_nil_iff]
    intro k hk
    rw [List.mem_range, lt_cursorCount_iff] at hk
    have hx := hout (s.ns + k * duration) (by rw [duration_eq]; omega) hk
    have hb : isBusinessHours env.pacificTZ (cursor s k) = false := by
      rw [isBusinessHours_cursor]
      cases hbh : isBusinessHours env.pacificTZ (instant (s.ns + k * duration)) with
      | false => rfl
      | true =>
        rw [isBusinessHours_eq_true_iff] at hbh
        simp only [Saturday, Sunday] at hx
        omega
    simp [isFree, hb]
  rw [hnone]
  rfl

/-- C9 on the repository's tests: Sunday 2019-01-20 from 08:00 to 17:00 Pacific
time, and Thursday 2019-01-24 from 07:00 to 08:00 Pacific time, each give the
empty list. -/
theorem no_slot_outside_hours_dated :
    GetAvailableAppointments example2019 testDB
      ⟨"1", "2019-01-20T08:00:00-08:00", "2019-01-20T17:00:00-08:00"⟩ = ⟨200, .slots []⟩ ∧
    GetAvailableAppointments example2019 testDB
      ⟨"1", "2019-01-24T07:00:00-08:00", "2019-01-24T08:00:00-08:00"⟩ = ⟨200, .slots []⟩ := by
  constructor
  · refine no_slot_outside_hours example2019 testDB
      ⟨"1", "2019-01-20T08:00:00-08:00", "2019-01-20T17:00:00-08:00"⟩ 1
      ⟨1548000000000000000, FixedZone (-28800)⟩ ⟨1548032400000000000, FixedZone (-28800)⟩
      (by decide) (by decide) (by decide) rfl rfl rfl ?_
    intro x hlo hhi
    refine Or.inr (Or.inl ?_)
    show ((x / 1000000000 + losAngeles.lookup (x / 1000000000)) / 86400 + 4) % 7 = 0
    have hlo2 : (1548000000000000000 : Int) ≤ x := hlo
    have hhi2 : x < (1548032400000000000 : Int) := hhi
    rw [losAngeles_january_2019 (x / 1000000000) (by omega) (by omega)]
    omega
  · refine no_slot_outside_hours example2019 testDB
      ⟨"1", "2019-01-24T07:00:00-08:00", "2019-01-24T08:00:00-08:00"⟩ 1
      ⟨1548342000000000000, FixedZone (-28800)⟩ ⟨1548345600000000000, FixedZone (-28800)⟩
      (by decide) (by decide) (by decide) rfl rfl rfl ?_
    intro x hlo hhi
    refine Or.inr (Or.inr (Or.inl ?_))
    show (x / 1000000000 + losAngeles.lookup (x / 1000000000)) % 86400 / 3600 < 8
    have hlo2 : (1548342000000000000 : Int) ≤ x := hlo
    have hhi2 : x < (1548345600000000000 : Int) := hhi
    rw [losAngeles_january_2019 (x / 1000000000) (by omega) (by omega)]
    omega

/-! ## The answer depends on the instants only (C10) -/

/-- C10: two queries whose trainer texts are read as the same trainer and whose
range timestamps parse to the same instants, in whatever offsets they are
written, get the same response on the same table. The handler is a function of
the environment, the table and the query, and returns no table: a repeated
call on an unchanged table gives the same response. -/
theorem same_instants_same_slots (env : Env) (db : DB) (q1 q2 : Query) (T : Int)
    (s1 e1 s2 e2 : Time)
    (h1 : q1.trainer_id ≠ "") (h2 : q1.starts_at ≠ "") (h3 : q1.ends_at ≠ "")
    (k1 : q2.trainer_id ≠ "") (k2 : q2.starts_at ≠ "") (k3 : q2.ends_at ≠ "")
    (hs1 : env.Parse q1.starts_at = some s1) (he1 : env.Parse q1.ends_at = some e1)
    (hs2 : env.Parse q2.starts_at = some s2) (he2 : env.Parse q2.ends_at = some e2)
    (hT1 : env.int8 q1.trainer_id = some T) (hT2 : env.int8 q2.trainer_id = some T)
    (hs : s1.ns = s2.ns) (he : e1.ns = e2.ns) :
    GetAvailableAppointments env db q1 = GetAvailableAppointments env db q2 := by
  rw [GetAvailableAppointments_ok env db q1 T s1 e1 h1 h2 h3 hs1 he1 hT1,
    GetAvailableAppointments_ok env db q2 T s2 e2 k1 k2 k3 hs2 he2 hT2]
  obtain ⟨n1, l1⟩ := s1
  obtain ⟨m1, j1⟩ := e1
  obtain ⟨n2, l2⟩ := s2
  obtain ⟨m2, j2⟩ := e2
  simp only at hs he
  subst hs he
  rw [List.map_map, List.map_map]
  rfl

/-- C10 on the repository's tests: the business day of 2019-01-24 written with
the offset `-08:00` and written in UTC gives the same response. -/
theorem same_instants_same_slots_dated :
    GetAvailableAppointments example2019 testDB
        ⟨"1", "2019-01-24T08:00:00-08:00", "2019-01-24T17:00:00-08:00"⟩ =
      GetAvailableAppointments example2019 testDB
        ⟨"1", "2019-01-24T16:00:00Z", "2019-01-25T01:00:00Z"⟩ :=
  same_instants_same_slots example2019 testDB
    ⟨"1", "2019-01-24T08:00:00-08:00", "2019-01-24T17:00:00-08:00"⟩
    ⟨"1", "2019-01-24T16:00:00Z", "2019-01-25T01:00:00Z"⟩ 1
    ⟨1548345600000000000, FixedZone (-28800)⟩ ⟨1548378000000000000, FixedZone (-28800)⟩
    ⟨1548345600000000000, Location.UTC⟩ ⟨1548378000000000000, Location.UTC⟩
    (by decide) (by decide) (by decide) (by decide) (by decide) (by decide)
    rfl rfl rfl rfl rfl rfl rfl rfl

/-! ## Instants are kept (C11) -/

/-- The four possible outcomes of `GetAvailableAppointments`: a parameter is
absent; a timestamp does not parse; the trainer text is refused by the database;
or the slots of the free cursors are returned. The first two do not depend on the
table. -/
theorem GetAvailableAppointments_cases (env : Env) (db : DB) (q : Query) :
    ((q.trainer_id = "" ∨ q.starts_at = "" ∨ q.ends_at = "") ∧
      ∀ db1 : DB, GetAvailableAppointments env db1 q = missingError) ∨
    ((q.trainer_id ≠ "" ∧ q.starts_at ≠ "" ∧ q.ends_at ≠ "") ∧
      (env.Parse q.starts_at = none ∨ env.Parse q.ends_at = none) ∧
      ∀ db1 : DB, GetAvailableAppointments env db1 q = formatError) ∨
    ((q.trainer_id ≠ "" ∧ q.starts_at ≠ "" ∧ q.ends_at ≠ "") ∧
      (∃ s e : Time, env.Parse q.starts_at = some s ∧ env.Parse q.ends_at = some e) ∧
      env.int8 q.trainer_id = none ∧
      ∀ db1 : DB, GetAvailableAppointments env db1 q = fetchError) ∨
    (∃ (T : Int) (s e : Time),
      (q.trainer_id ≠ "" ∧ q.starts_at ≠ "" ∧ q.ends_at ≠ "") ∧
      env.Parse q.starts_at = some s ∧ env.Parse q.ends_at = some e ∧
      env.int8 q.trainer_id = some T ∧
      GetAvailableAppointments env db q =
        ⟨200, .slots ((((List.range (cursorCount s.ns e.ns)).filter
          (fun k => isFree env.pacificTZ (bookedKeys db T s e) (cursor s k))).map
            (slotAt s)).map (render env.pacificTZ))⟩) := by
  by_cases hm : q.trainer_id = "" ∨ q.starts_at = "" ∨ q.ends_at = ""
  · refine Or.inl ⟨hm, fun db1 => ?_⟩
    simp only [GetAvailableAppointments, missingError, if_pos hm]
  · have hm2 := hm
    simp only [not_or] at hm2
    obtain ⟨h1, h2, h3⟩ := hm2
    refine Or.inr ?_
    cases hs : env.Parse q.starts_at with
    | none =>
      refine Or.inl ⟨⟨h1, h2, h3⟩, Or.inl rfl, fun db1 => ?_⟩
      simp only [GetAvailableAppointments, formatError, if_neg hm, hs]
    | some s =>
      cases he : env.Parse q.ends_at with
      | none =>
        refine Or.inl ⟨⟨h1, h2, h3⟩, Or.inr rfl, fun db1 => ?_⟩
        simp only [GetAvailableAppointments, formatError, if_neg hm, hs, he]
      | some e =>
        refine Or.inr ?_
        cases hT : env.int8 q.trainer_id with
        | none =>
          refine Or.inl ⟨⟨h1, h2, h3⟩, ⟨s, e, rfl, rfl⟩, rfl, fun db1 => ?_⟩
          simp only [GetAvailableAppointments, fetchError, if_neg hm, hs, he, DB.FindBooked, hT]
        | some T =>
          exact Or.inr ⟨T, s, e, ⟨h1, h2, h3⟩, rfl, rfl, rfl,
            GetAvailableAppointments_ok env db q T s e h1 h2 h3 hs he hT⟩

/-- The slots of any response are the rendered slots of an increasing run of
cursor numbers. -/
theorem slots_eq_map (env : Env) (db : DB) (q : Query) :
    ∃ (s : Time) (ks : List Nat), ks.Pairwise (· < ·) ∧
      (GetAvailableAppointments env db q).slots =
        ks.map fun k => render env.pacificTZ (slotAt s k) := by
  rcases GetAvailableAppointments_cases env db q with
    ⟨_, h⟩ | ⟨_, _, h⟩ | ⟨_, _, _, h⟩ | ⟨T, s, e, _, _, _, _, h⟩
  · exact ⟨instant 0, [], List.Pairwise.nil, by rw [h db]; rfl⟩
  · exact ⟨instant 0, [], List.Pairwise.nil, by rw [h db]; rfl⟩
  · exact ⟨instant 0, [], List.Pairwise.nil, by rw [h db]; rfl⟩
  · refine ⟨s, (List.range (cursorCount s.ns e.ns)).filter
      (fun k => isFree env.pacificTZ (bookedKeys db T s e) (cursor s k)),
      List.Pairwise.filter _ (List.pairwise_lt_range _), ?_⟩
    rw [h, List.map_map]
    rfl

/-- C11: a parsed timestamp, its normalisation to UTC for storage and its
rendering in the reference zone denote the same instant, and reading the
rendered value back in the location of the input gives the input, wall clock
included. The `starts_at` and `ends_at` of a 201 answer of `CreateAppointment`
are the instants of the request and of the stored row, and every slot of
`GetAvailableAppointments` starts at the instant of a cursor and ends thirty
minutes later. -/
theorem instants_kept (env : Env) (db : DB) :
    (∀ t : Time, t.UTC.ns = t.ns ∧ (t.UTC.In env.pacificTZ).ns = t.ns ∧
      (t.UTC.In env.pacificTZ).In t.loc = t ∧
      ((t.UTC.In env.pacificTZ).In t.loc).abs = t.abs) ∧
    (∀ (req : CreateRequest) (s e : Time),
      env.Parse req.StartsAt = some s → env.Parse req.EndsAt = some e →
      (CreateAppointment env db (.ok req)).1.status = 201 →
      ∃ (apt : Appointment) (starts_at ends_at : Time),
        (CreateAppointment env db (.ok req)) =
          (⟨201, .appointment apt.ID apt.TrainerID apt.UserID starts_at ends_at⟩,
            ⟨db.rows ++ [apt]⟩) ∧
        starts_at.ns = s.ns ∧ ends_at.ns = e.ns ∧
        apt.StartsAt.ns = s.ns ∧ apt.EndsAt.ns = e.ns) ∧
    (∀ (q : Query) (s e : Time),
      env.Parse q.starts_at = some s → env.Parse q.ends_at = some e →
      ∀ slot ∈ (GetAvailableAppointments env db q).slots,
        ∃ k : Nat, slot.StartsAt.ns = (cursor s k).ns ∧
          slot.EndsAt.ns = ((cursor s k).Add duration).ns) := by
  refine ⟨fun t => ⟨rfl, rfl, rfl, rfl⟩, ?_, ?_⟩
  · intro req s e hs he hst
    rcases CreateAppointment_cases env db (.ok req) with
      ⟨r, hr, h⟩ | ⟨req1, s1, e1, hreq, hs1, he1, _, _, _, h⟩
    · rw [h db] at hst
      simp only at hst
      omega
    · cases hreq
      rw [hs] at hs1
      rw [he] at he1
      cases hs1
      cases he1
      rcases h with ⟨_, h⟩ | ⟨_, h⟩
      · rw [h] at hst
        simp [conflictError] at hst
      · exact ⟨⟨db.nextID, req.TrainerID, req.UserID, s.UTC, e.UTC⟩,
          s.UTC.In env.pacificTZ, e.UTC.In env.pacificTZ, h, rfl, rfl, rfl, rfl⟩
  · intro q s e hs he slot hslot
    rcases GetAvailableAppointments_cases env db q with
      ⟨_, h⟩ | ⟨_, _, h⟩ | ⟨_, _, _, h⟩ | ⟨T, s1, e1, _, hs1, he1, _, h⟩
    · rw [h db] at hslot; exact absurd hslot (List.not_mem_nil _)
    · rw [h db] at hslot; exact absurd hslot (List.not_mem_nil _)
    · rw [h db] at hslot; exact absurd hslot (List.not_mem_nil _)
    · rw [hs] at hs1
      cases hs1
      rw [h] at hslot
      simp only [Response.slots, List.mem_map, exists_exists_and_eq_and] at hslot
      obtain ⟨k, _, rfl⟩ := hslot
      exact ⟨k, rfl, rfl⟩

/-- C11 on the repository's test request: booked on an empty table, the start
`2019-01-24T09:00:00-08:00` and the end `2019-01-24T09:30:00-08:00` come back,
and are stored, at their own instants. -/
theorem instants_kept_dated :
    ∃ (apt : Appointment) (starts_at ends_at : Time),
      (CreateAppointment example2019 ⟨[]⟩
        (.ok ⟨1, 100, "2019-01-24T09:00:00-08:00", "2019-01-24T09:30:00-08:00"⟩)) =
        (⟨201, .appointment apt.ID apt.TrainerID apt.UserID starts_at ends_at⟩,
          ⟨[] ++ [apt]⟩) ∧
      starts_at.ns = 1548349200000000000 ∧ ends_at.ns = 1548351000000000000 ∧
      apt.StartsAt.ns = 1548349200000000000 ∧ apt.EndsAt.ns = 1548351000000000000 :=
  (instants_kept example2019 ⟨[]⟩).2.1
    ⟨1, 100, "2019-01-24T09:00:00-08:00", "2019-01-24T09:30:00-08:00"⟩
    ⟨1548349200000000000, FixedZone (-28800)⟩ ⟨1548351000000000000, FixedZone (-28800)⟩
    rfl rfl (by decide)

/-! ## Order of the slots (C12) -/

/-- C12: whatever the query, the slots of the response are in strictly ascending
order of start instant; of two consecutive slots the later starts a positive
whole number of half hours after the earlier; no start instant is repeated;
and a slot ends no later than any later slot starts. -/
theorem slots_strictly_ascending (env : Env) (db : DB) (q : Query) :
    (GetAvailableAppointments env db q).slots.Pairwise
      (fun a b => a.StartsAt.ns < b.StartsAt.ns) ∧
    (GetAvailableAppointments env db q).slots.Chain'
      (fun a b => ∃ m : Nat, 0 < m ∧ b.StartsAt.ns = a.StartsAt.ns + m * duration) ∧
    ((GetAvailableAppointments env db q).slots.map fun slot => slot.StartsAt.ns).Nodup ∧
    (GetAvailableAppointments env db q).slots.Pairwise
      (fun a b => a.EndsAt.ns ≤ b.StartsAt.ns) := by
  obtain ⟨s, ks, hks, hslots⟩ := slots_eq_map env db q
  rw [hslots]
  have hstep : (ks.map fun k => render env.pacificTZ (slotAt s k)).Pairwise
      (fun a b => ∃ m : Nat, 0 < m ∧ b.StartsAt.ns = a.StartsAt.ns + m * duration ∧
        a.EndsAt.ns = a.StartsAt.ns + duration) := by
    refine List.Pairwise.map _ ?_ hks
    intro a b hab
    refine ⟨b - a, by omega, ?_, rfl⟩
    simp only [render, slotAt, cursor, Time.In]
    have hcast : ((b - a : Nat) : Int) = (b : Int) - (a : Int) := by omega
    rw [hcast]
    ring
  refine ⟨?_, ?_, ?_, ?_⟩
  · refine hstep.imp ?_
    rintro a b ⟨m, hm, hb, _⟩
    rw [hb, duration_eq]
    have : (1 : Int) ≤ m := by omega
    nlinarith
  · refine List.Pairwise.chain' (hstep.imp ?_)
    rintro a b ⟨m, hm, hb, _⟩
    exact ⟨m, hm, hb⟩
  · rw [List.Nodup, List.pairwise_map]
    refine hstep.imp ?_
    rintro a b ⟨m, hm, hb, _⟩
    rw [hb, duration_eq]
    have : (1 : Int) ≤ m := by omega
    intro heq
    nlinarith
  · refine hstep.imp ?_
    rintro a b ⟨m, hm, hb, ha⟩
    rw [hb, ha, duration_eq]
    have : (1 : Int) ≤ m := by omega
    nlinarith

/-! ## Termination and size of the walk (C13) -/

theorem walkVisits_eq (e : Time) :
    ∀ (fuel : Nat) (c : Time), cursorCount c.ns e.ns ≤ fuel →
      walkVisits e fuel c = cursorCount c.ns e.ns := by
  intro fuel
  induction fuel with
  | zero =>
    intro c h
    have h0 : cursorCount c.ns e.ns = 0 := by omega
    simp [walkVisits, h0]
  | succ fuel ih =>
    intro c h
    by_cases hlt : c.ns < e.ns
    · have hc := cursorCount_of_before c.ns e.ns hlt
      have hfuel : cursorCount (c.Add duration).ns e.ns ≤ fuel := by
        simp only [Time.Add]; omega
      have hrec := ih (c.Add duration) hfuel
      have hns : (c.Add duration).ns = c.ns + duration := rfl
      rw [hns] at hrec
      simp only [walkVisits, Time.Before, hlt, decide_True, if_true, hrec, hc]
    · have h0 := cursorCount_of_not_before c.ns e.ns hlt
      simp [walkVisits, Time.Before, hlt, h0]

/-- C13: on a well-formed query, if `rangeStart` is not before `rangeEnd` the loop
of the handler runs its body at no cursor and the answer is 200 with the empty
list; otherwise the loop stops by its own test after running its body at
exactly `⌈(rangeEnd - rangeStart) / 30 min⌉` cursors, namely those numbered
below that count: the slots the loop of the handler emits are those of the
cursors numbered below the count that pass its test, each such cursor gives a
slot of the response, and the response is 200 with at most that many slots. -/
theorem walk_visits_ceiling (env : Env) (db : DB) (q : Query) (T : Int) (s e : Time)
    (h1 : q.trainer_id ≠ "") (h2 : q.starts_at ≠ "") (h3 : q.ends_at ≠ "")
    (hs : env.Parse q.starts_at = some s) (he : env.Parse q.ends_at = some e)
    (hT : env.int8 q.trainer_id = some T) :
    (¬ s.ns < e.ns →
      walkVisits e (e.ns - s.ns).toNat s = 0 ∧
      walk env.pacificTZ (bookedKeys db T s e) e (e.ns - s.ns).toNat s = [] ∧
      GetAvailableAppointments env db q = ⟨200, .slots []⟩) ∧
    (s.ns < e.ns →
      ∃ n : Nat,
        walkVisits e (e.ns - s.ns).toNat s = n ∧
        (n : Int) = (e.ns - s.ns + (duration - 1)) / duration ∧
        ((n : Int) - 1) * duration < e.ns - s.ns ∧ e.ns - s.ns ≤ n * duration ∧
        (∀ k : Nat, (cursor s k).Before e = true ↔ k < n) ∧
        walk env.pacificTZ (bookedKeys db T s e) e (e.ns - s.ns).toNat s =
          ((List.range (walkVisits e (e.ns - s.ns).toNat s)).filter
            (fun k => isFree env.pacificTZ (bookedKeys db T s e) (cursor s k))).map
              (slotAt s) ∧
        ∃ slots : List AvailableSlot,
          GetAvailableAppointments env db q = ⟨200, .slots slots⟩ ∧
          slots = (((List.range n).filter
            (fun k => isFree env.pacificTZ (bookedKeys db T s e) (cursor s k))).map
              (slotAt s)).map (render env.pacificTZ) ∧
          (∀ k : Nat, k < n →
            isFree env.pacificTZ (bookedKeys db T s e) (cursor s k) = true →
            render env.pacificTZ (slotAt s k) ∈ slots) ∧
          (∀ slot ∈ slots, ∃ k : Nat, k < n ∧
            isFree env.pacificTZ (bookedKeys db T s e) (cursor s k) = true ∧
            slot = render env.pacificTZ (slotAt s k)) ∧
          slots.length ≤ n) := by
  have hok := GetAvailableAppointments_ok env db q T s e h1 h2 h3 hs he hT
  have hvis := walkVisits_eq e _ s (cursorCount_le s.ns e.ns)
  have hwalk := walk_eq env.pacificTZ (bookedKeys db T s e) e (e.ns - s.ns).toNat s
    (cursorCount_le s.ns e.ns)
  constructor
  · intro hlt
    have h0 := cursorCount_of_not_before s.ns e.ns hlt
    refine ⟨by rw [hvis, h0], ?_, ?_⟩
    · rw [hwalk, h0]
      rfl
    · rw [hok, h0]
      rfl
  · intro hlt
    refine ⟨cursorCount s.ns e.ns, hvis, ?_, ?_, ?_, ?_, ?_, _, hok, rfl, ?_, ?_, ?_⟩
    · simp only [cursorCount, duration_eq]
      omega
    · simp only [cursorCount, duration_eq]
      omega
    · simp only [cursorCount, duration_eq]
      omega
    · intro k
      rw [lt_cursorCount_iff]
      simp [Time.Before, cursor]
    · rw [hvis, hwalk]
    · intro k hk hfree
      simp only [List.mem_map, List.mem_filter, List.mem_range, exists_exists_and_eq_and]
      exact ⟨k, ⟨hk, hfree⟩, rfl⟩
    · intro slot hslot
      simp only [List.mem_map, List.mem_filter, List.mem_range,
        exists_exists_and_eq_and] at hslot
      obtain ⟨k, ⟨hk, hfree⟩, rfl⟩ := hslot
      exact ⟨k, hk, hfree, rfl⟩
    · rw [List.length_map, List.length_map]
      exact (List.length_filter_le _ _).trans (by rw [List.length_range])

/-- C13 on dated ranges of the test table: from 17:00 back to 08:00 the loop
visits no cursor and the answer is the empty list; from 08:00 to 17:00 the loop
visits 18 cursors, the slot of the first of them is returned, and the response
has at most 18 slots. -/
theorem walk_visits_ceiling_dated :
    (walkVisits ⟨1548345600000000000, FixedZone (-28800)⟩
        ((1548345600000000000 : Int) - 1548378000000000000).toNat
        ⟨1548378000000000000, FixedZone (-28800)⟩ = 0 ∧
      GetAvailableAppointments example2019 testDB
        ⟨"1", "2019-01-24T17:00:00-08:00", "2019-01-24T08:00:00-08:00"⟩ = ⟨200, .slots []⟩) ∧
    (walkVisits ⟨1548378000000000000, FixedZone (-28800)⟩
        ((1548378000000000000 : Int) - 1548345600000000000).toNat
        ⟨1548345600000000000, FixedZone (-28800)⟩ = 18 ∧
      ∃ slots : List AvailableSlot,
        GetAvailableAppointments example2019 testDB
          ⟨"1", "2019-01-24T08:00:00-08:00", "2019-01-24T17:00:00-08:00"⟩ =
            ⟨200, .slots slots⟩ ∧
        render losAngeles (slotAt ⟨1548345600000000000, FixedZone (-28800)⟩ 0) ∈ slots ∧
        slots.length ≤ 18) := by
  constructor
  · have h := (walk_visits_ceiling example2019 testDB
      ⟨"1", "2019-01-24T17:00:00-08:00", "2019-01-24T08:00:00-08:00"⟩ 1
      ⟨1548378000000000000, FixedZone (-28800)⟩ ⟨1548345600000000000, FixedZone (-28800)⟩
      (by decide) (by decide) (by decide) rfl rfl rfl).1 (by decide)
    exact ⟨h.1, h.2.2⟩
  · obtain ⟨n, hv, _, _, _, _, _, slots, hresp, _, hmem, _, hlen⟩ :=
      (walk_visits_ceiling example2019 testDB
        ⟨"1", "2019-01-24T08:00:00-08:00", "2019-01-24T17:00:00-08:00"⟩ 1
        ⟨1548345600000000000, FixedZone (-28800)⟩ ⟨1548378000000000000, FixedZone (-28800)⟩
        (by decide) (by decide) (by decide) rfl rfl rfl).2 (by decide)
    have h18 : walkVisits ⟨1548378000000000000, FixedZone (-28800)⟩
        ((1548378000000000000 : Int) - 1548345600000000000).toNat
        ⟨1548345600000000000, FixedZone (-28800)⟩ = 18 := by decide
    have hn : n = 18 := by rw [← hv]; exact h18
    subst hn
    exact ⟨h18, slots, hresp, hmem 0 (by decide) (by decide), hlen⟩

/-! ## The bearer token (C14) -/

theorem startsWith_iff (l : List Char) : ∀ s : List Char,
    startsWith l s = true ↔ ∃ r, s = l ++ r := by
  induction l with
  | nil => intro s; simp [startsWith]
  | cons a l ih =>
    intro s
    cases s with
    | nil => simp [startsWith]
    | cons b s =>
      simp only [startsWith, Bool.and_eq_true, beq_iff_eq, ih s, List.cons_append,
        List.cons.injEq]
      constructor
      · rintro ⟨rfl, r, rfl⟩
        exact ⟨r, rfl, rfl⟩
      · rintro ⟨r, rfl, rfl⟩
        exact ⟨rfl, r, rfl⟩

theorem AuthMiddleware_next_iff (serviceToken authorization : String) :
    AuthMiddleware serviceToken authorization = .Next ↔
      authorization = "Bearer " ++ serviceToken := by
  constructor
  · intro h
    simp only [AuthMiddleware] at h
    split at h
    · cases h
    · rename_i hcond
      simp only [not_or, Bool.not_eq_false] at hcond
      split at h
      · cases h
      · rename_i htok
        simp only [ne_eq, not_not] at htok
        have hp := hcond.2
        simp only [TrimPrefix, hp, if_true] at htok
        simp only [HasPrefix] at hp
        obtain ⟨r, hr⟩ := (startsWith_iff _ _).mp hp
        apply String.ext
        rw [String.data_append, hr]
        rw [hr, List.drop_left] at htok
        rw [← htok]
  · intro h
    subst h
    have hp : HasPrefix ("Bearer " ++ serviceToken) "Bearer " = true := by
      simp only [HasPrefix, String.data_append]
      exact (startsWith_iff _ _).mpr ⟨_, rfl⟩
    have hne : ("Bearer " ++ serviceToken) ≠ "" := by
      intro h
      have := congrArg String.data h
      rw [String.data_append] at this
      simp at this
    have htrim : TrimPrefix ("Bearer " ++ serviceToken) "Bearer " = serviceToken := by
      simp only [TrimPrefix, hp, if_true, String.data_append, List.drop_left]
    simp [AuthMiddleware, hp, hne, htrim]

theorem AuthMiddleware_abort (serviceToken authorization : String)
    (h : authorization ≠ "Bearer " ++ serviceToken) :
    AuthMiddleware serviceToken authorization = .AbortWithStatus 401 := by
  have hn : AuthMiddleware serviceToken authorization ≠ .Next :=
    fun hc => h ((AuthMiddleware_next_iff serviceToken authorization).mp hc)
  simp only [AuthMiddleware] at hn ⊢
  split
  · rfl
  · rename_i hcond
    rw [if_neg hcond] at hn
    split
    · rfl
    · rename_i htok
      rw [if_neg htok] at hn
      exact absurd rfl hn

/-- C14: `AuthMiddleware` lets the request through exactly when the
`Authorization` header is `Bearer ` followed by the configured token; every
other request, the one without the header included, is aborted with status 401,
and then the answer is that bare status whatever the handler: it does not
run, and the table is not touched. -/
theorem bearer_token_gate (serviceToken authorization : String) :
    (AuthMiddleware serviceToken authorization = .Next ↔
      authorization = "Bearer " ++ serviceToken) ∧
    (authorization ≠ "Bearer " ++ serviceToken →
      AuthMiddleware serviceToken authorization = .AbortWithStatus 401) ∧
    (∀ (handler : DB → Response × DB) (db : DB),
      (authorization = "Bearer " ++ serviceToken →
        serve serviceToken authorization handler db = .ok (handler db)) ∧
      (authorization ≠ "Bearer " ++ serviceToken →
        serve serviceToken authorization handler db = .error 401)) ∧
    AuthMiddleware serviceToken "" = .AbortWithStatus 401 := by
  refine ⟨AuthMiddleware_next_iff serviceToken authorization,
    AuthMiddleware_abort serviceToken authorization, ?_, rfl⟩
  intro handler db
  constructor
  · intro h
    simp only [serve, (AuthMiddleware_next_iff serviceToken authorization).mpr h]
  · intro h
    simp only [serve, AuthMiddleware_abort serviceToken authorization h]

/-- C14 on the four requests of `TestAuthMiddleware`, with the token `secret`:
the right token passes; no header, a token that is not the configured one, and
`Bearer wrong-token` are answered 401. -/
theorem bearer_token_gate_dated :
    AuthMiddleware "secret" "Bearer secret" = .Next ∧
    AuthMiddleware "secret" "" = .AbortWithStatus 401 ∧
    AuthMiddleware "secret" "Bearer not-a-bearer-token" = .AbortWithStatus 401 ∧
    AuthMiddleware "secret" "Bearer wrong-token" = .AbortWithStatus 401 ∧
    AuthMiddleware "secret" "secret" = .AbortWithStatus 401 :=
  ⟨(bearer_token_gate "secret" "Bearer secret").1.mpr (by decide),
   (bearer_token_gate "secret" "").2.1 (by decide),
   (bearer_token_gate "secret" "Bearer not-a-bearer-token").2.1 (by decide),
   (bearer_token_gate "secret" "Bearer wrong-token").2.1 (by decide),
   (bearer_token_gate "secret" "secret").2.1 (by decide)⟩

/-! ## Refusals of `GetAvailableAppointments` (C15) -/

/-- C15: `GetAvailableAppointments` answers 400 with the missing-parameter error,
on every table, when `trainer_id`, `starts_at` or `ends_at` is empty, whether
or not the timestamps parse; with all three present it answers 400 with the
format error, on every table, when `starts_at` or `ends_at` does not parse; and
in every other case in which the fetch succeeds, that is when the database
reads the trainer text as a `bigint`, it answers 200 with a list of slots. The
two refusals differ. -/
theorem query_refusals (env : Env) (db : DB) (q : Query) :
    ((q.trainer_id = "" ∨ q.starts_at = "" ∨ q.ends_at = "") →
      ∀ db1 : DB, GetAvailableAppointments env db1 q = missingError) ∧
    (q.trainer_id ≠ "" → q.starts_at ≠ "" → q.ends_at ≠ "" →
      (env.Parse q.starts_at = none ∨ env.Parse q.ends_at = none) →
      ∀ db1 : DB, GetAvailableAppointments env db1 q = formatError) ∧
    (q.trainer_id ≠ "" → q.starts_at ≠ "" → q.ends_at ≠ "" →
      ∀ (s e : Time) (T : Int), env.Parse q.starts_at = some s →
        env.Parse q.ends_at = some e → env.int8 q.trainer_id = some T →
        ∃ slots : List AvailableSlot,
          GetAvailableAppointments env db q = ⟨200, .slots slots⟩) ∧
    missingError.status = 400 ∧ formatError.status = 400 ∧ missingError ≠ formatError := by
  refine ⟨?_, ?_, ?_, rfl, rfl, by simp [missingError, formatError]⟩
  · intro hm db1
    simp only [GetAvailableAppointments, missingError, if_pos hm]
  · intro h1 h2 h3 hp db1
    have hm : ¬ (q.trainer_id = "" ∨ q.starts_at = "" ∨ q.ends_at = "") := by
      simp [h1, h2, h3]
    rcases hp with hp | hp
    · simp only [GetAvailableAppointments, formatError, if_neg hm, hp]
    · simp only [GetAvailableAppointments, formatError, if_neg hm, hp]
      cases env.Parse q.starts_at <;> rfl
  · intro h1 h2 h3 s e T hs he hT
    exact ⟨_, GetAvailableAppointments_ok env db q T s e h1 h2 h3 hs he hT⟩

/-- C15 on the repository's tests: `starts_at=invalid` is answered with the format
error, a query without `trainer_id` with the missing-parameter error, and a
query without `trainer_id` whose `starts_at` does not parse with the
missing-parameter error as well. -/
theorem query_refusals_dated :
    GetAvailableAppointments example2019 testDB ⟨"1", "invalid", "2019-01-24T17:00:00"⟩ =
      formatError ∧
    GetAvailableAppointments example2019 testDB
      ⟨"", "2019-01-24T16:00:00Z", "2019-01-24T17:00:00Z"⟩ = missingError ∧
    GetAvailableAppointments example2019 testDB ⟨"", "invalid", "2019-01-24T17:00:00Z"⟩ =
      missingError :=
  ⟨(query_refusals example2019 testDB ⟨"1", "invalid", "2019-01-24T17:00:00"⟩).2.1
      (by decide) (by decide) (by decide) (Or.inl rfl) testDB,
   (query_refusals example2019 testDB ⟨"", "2019-01-24T16:00:00Z", "2019-01-24T17:00:00Z"⟩).1
      (Or.inl rfl) testDB,
   (query_refusals example2019 testDB ⟨"", "invalid", "2019-01-24T17:00:00Z"⟩).1
      (Or.inl rfl) testDB⟩

/-! ## The effect of an admitted booking (C16) -/

theorem foldl_max_ge (l : List Nat) : ∀ init : Nat,
    init ≤ l.foldl max init ∧ ∀ x ∈ l, x ≤ l.foldl max init := by
  induction l with
  | nil => intro init; simp
  | cons a l ih =>
    intro init
    obtain ⟨h1, h2⟩ := ih (max init a)
    simp only [List.foldl_cons, List.mem_cons]
    refine ⟨le_trans (le_max_left _ _) h1, ?_⟩
    rintro x (rfl | hx)
    · exact le_trans (le_max_right _ _) h1
    · exact h2 x hx

theorem nextID_fresh (db : DB) : ∀ apt ∈ db.rows, apt.ID < db.nextID := by
  intro apt hapt
  have h := (foldl_max_ge (db.rows.map fun a => a.ID) 0).2 apt.ID
    (List.mem_map.mpr ⟨apt, hapt, rfl⟩)
  simp only [DB.nextID]
  omega

/-- C16: when the four checks pass and no row has the trainer and start instant
of the request, `CreateAppointment` appends exactly one row to the table and
leaves the rows before it as they were; the row carries the trainer and user
of the request and the instants of `starts_at` and `ends_at`, in UTC, under a
key no earlier row has; and the answer is 201 with that key, trainer, user and
instants. -/
theorem admitted_booking_is_appended (env : Env) (db : DB) (req : CreateRequest) (s e : Time)
    (hs : env.Parse req.StartsAt = some s) (he : env.Parse req.EndsAt = some e)
    (hb : isBusinessHours env.pacificTZ s = true) (ha : s.Minute % 30 = 0)
    (hd : e.Sub s = duration)
    (hfree : ¬ ∃ apt ∈ db.rows, apt.TrainerID = req.TrainerID ∧ apt.StartsAt.ns = s.ns) :
    ∃ (apt : Appointment) (starts_at ends_at : Time),
      CreateAppointment env db (.ok req) =
        (⟨201, .appointment apt.ID apt.TrainerID apt.UserID starts_at ends_at⟩,
          ⟨db.rows ++ [apt]⟩) ∧
      (CreateAppointment env db (.ok req)).2.rows.length = db.rows.length + 1 ∧
      apt.TrainerID = req.TrainerID ∧ apt.UserID = req.UserID ∧
      apt.StartsAt = s.UTC ∧ apt.EndsAt = e.UTC ∧
      apt.StartsAt.ns = s.ns ∧ apt.EndsAt.ns = e.ns ∧
      starts_at = apt.StartsAt.In env.pacificTZ ∧ ends_at = apt.EndsAt.In env.pacificTZ ∧
      (∀ old ∈ db.rows, old.ID ≠ apt.ID) := by
  have hv := CreateAppointment_valid env db req s e hs he hb ha hd
  rw [if_neg (by simpa using hfree)] at hv
  refine ⟨⟨db.nextID, req.TrainerID, req.UserID, s.UTC, e.UTC⟩,
    s.UTC.In env.pacificTZ, e.UTC.In env.pacificTZ, hv, ?_, rfl, rfl, rfl, rfl, rfl, rfl,
    rfl, rfl, ?_⟩
  · rw [hv]
    simp
  · intro old hold
    have := nextID_fresh db old hold
    simp only [ne_eq]
    omega

/-- C16 on the repository's test request, booked on the test table for trainer 2:
the table grows from one row to two. -/
theorem admitted_booking_is_appended_dated :
    ∃ (apt : Appointment) (starts_at ends_at : Time),
      CreateAppointment example2019 testDB
          (.ok ⟨2, 100, "2019-01-24T09:00:00-08:00", "2019-01-24T09:30:00-08:00"⟩) =
        (⟨201, .appointment apt.ID apt.TrainerID apt.UserID starts_at ends_at⟩,
          ⟨testDB.rows ++ [apt]⟩) ∧
      (CreateAppointment example2019 testDB
        (.ok ⟨2, 100, "2019-01-24T09:00:00-08:00", "2019-01-24T09:30:00-08:00"⟩)).2.rows.length =
          testDB.rows.length + 1 ∧
      apt.TrainerID = 2 ∧ apt.UserID = 100 ∧
      apt.StartsAt = (⟨1548349200000000000, FixedZone (-28800)⟩ : Time).UTC ∧
      apt.EndsAt = (⟨1548351000000000000, FixedZone (-28800)⟩ : Time).UTC ∧
      apt.StartsAt.ns = 1548349200000000000 ∧ apt.EndsAt.ns = 1548351000000000000 ∧
      starts_at = apt.StartsAt.In losAngeles ∧ ends_at = apt.EndsAt.In losAngeles ∧
      (∀ old ∈ testDB.rows, old.ID ≠ apt.ID) :=
  admitted_booking_is_appended example2019 testDB
    ⟨2, 100, "2019-01-24T09:00:00-08:00", "2019-01-24T09:30:00-08:00"⟩
    ⟨1548349200000000000, FixedZone (-28800)⟩ ⟨1548351000000000000, FixedZone (-28800)⟩
    rfl rfl (by decide) (by decide) (by decide) (by decide)

/-! ## The appointments of a trainer (C17) -/

/-- C17: for a trainer text that is not empty and that the database reads as the
`bigint` `T`, `GetScheduledAppointments` answers 200 with one entry for each
row whose trainer is `T`, in the order of the table, whatever the instants of
the row: the entry has the key, trainer and user of the row and its two
instants read in the reference zone. No entry has another trainer, and the
number of entries is the number of rows of trainer `T`. The handler returns a
response only; it has no table to change. -/
theorem scheduled_of_trainer (env : Env) (db : DB) (trainerID : String) (T : Int)
    (h1 : trainerID ≠ "") (hT : env.int8 trainerID = some T) :
    ∃ entries : List Appointment,
      GetScheduledAppointments env db trainerID = ⟨200, .appointments entries⟩ ∧
      entries = (db.rows.filter fun apt => decide (apt.TrainerID = T)).map
        (entry env.pacificTZ) ∧
      entries.length = db.rows.countP (fun apt => decide (apt.TrainerID = T)) ∧
      (∀ en ∈ entries, en.TrainerID = T) ∧
      (∀ apt ∈ db.rows, apt.TrainerID = T → entry env.pacificTZ apt ∈ entries) ∧
      (∀ en ∈ entries, ∃ apt ∈ db.rows, apt.TrainerID = T ∧ en.ID = apt.ID ∧
        en.UserID = apt.UserID ∧ en.StartsAt.ns = apt.StartsAt.ns ∧
        en.EndsAt.ns = apt.EndsAt.ns) ∧
      ((∀ apt ∈ db.rows, apt.TrainerID ≠ T) → entries = []) := by
  refine ⟨_, ?_, rfl, ?_, ?_, ?_, ?_, ?_⟩
  · simp only [GetScheduledAppointments, if_neg h1, DB.FindByTrainer, hT]
    rfl
  · rw [List.length_map, List.countP_eq_length_filter]
  · intro en hen
    simp only [List.mem_map, List.mem_filter, decide_eq_true_eq] at hen
    obtain ⟨apt, ⟨_, hTr⟩, rfl⟩ := hen
    exact hTr
  · intro apt hapt hTr
    simp only [List.mem_map, List.mem_filter, decide_eq_true_eq]
    exact ⟨apt, ⟨hapt, hTr⟩, rfl⟩
  · intro en hen
    simp only [List.mem_map, List.mem_filter, decide_eq_true_eq] at hen
    obtain ⟨apt, ⟨hapt, hTr⟩, rfl⟩ := hen
    exact ⟨apt, hapt, hTr, rfl, rfl, rfl, rfl⟩
  · intro hnone
    have : (db.rows.filter fun apt => decide (apt.TrainerID = T)) = [] := by
      rw [List.filter_eq_nil_iff]
      intro apt hapt
      simpa using hnone apt hapt
    rw [this]
    rfl

/-- C17 on the repository's test: with one stored appointment of trainer 1,
trainer 1 gets one entry and trainer 999 none. -/
theorem scheduled_of_trainer_dated :
    (∃ entries : List Appointment,
      GetScheduledAppointments example2019 scheduledTestDB "1" =
        ⟨200, .appointments entries⟩ ∧ entries.length = 1) ∧
    (∃ entries : List Appointment,
      GetScheduledAppointments example2019 scheduledTestDB "999" =
        ⟨200, .appointments entries⟩ ∧ entries.length = 0) := by
  constructor
  · obtain ⟨entries, h, _, hlen, _⟩ :=
      scheduled_of_trainer example2019 scheduledTestDB "1" 1 (by decide) rfl
    exact ⟨entries, h, hlen.trans (by decide)⟩
  · obtain ⟨entries, h, _, hlen, _⟩ :=
      scheduled_of_trainer example2019 scheduledTestDB "999" 999 (by decide) rfl
    exact ⟨entries, h, hlen.trans (by decide)⟩

/-! ## Seconds are not examined (C18) -/

/-- C18, as stated, fails: the start `2019-01-24T09:00:15-08:00` is well formed,
in business hours and fifteen seconds past a half-hour mark of the reference
zone, yet with the end `2019-01-24T09:30:15-08:00` it is answered 201, not with
the alignment error, and the stored row starts off the half-hour marks. -/
theorem start_with_seconds_is_admitted :
    parseRFC3339 "2019-01-24T09:00:15-08:00" =
      some ⟨1548349215000000000, FixedZone (-28800)⟩ ∧
    isBusinessHours losAngeles ⟨1548349215000000000, FixedZone (-28800)⟩ = true ∧
    ((⟨1548349215000000000, FixedZone (-28800)⟩ : Time).In losAngeles).abs % 1800 = 15 ∧
    (CreateAppointment example2019 ⟨[]⟩
      (.ok ⟨1, 100, "2019-01-24T09:00:15-08:00", "2019-01-24T09:30:15-08:00"⟩)).1.status = 201 ∧
    (CreateAppointment example2019 ⟨[]⟩
      (.ok ⟨1, 100, "2019-01-24T09:00:15-08:00", "2019-01-24T09:30:15-08:00"⟩)).1 ≠
        alignmentError ∧
    ((CreateAppointment example2019 ⟨[]⟩
      (.ok ⟨1, 100, "2019-01-24T09:00:15-08:00", "2019-01-24T09:30:15-08:00"⟩)).2.rows.map
        fun apt => (apt.StartsAt.In losAngeles).abs % 1800) = [15] := by
  refine ⟨rfl, by decide, by decide, by decide, ?_, by decide⟩
  intro h
  have hst : (CreateAppointment example2019 ⟨[]⟩
      (.ok ⟨1, 100, "2019-01-24T09:00:15-08:00", "2019-01-24T09:30:15-08:00"⟩)).1.status = 201 := by
    decide
  rw [h] at hst
  simp [alignmentError] at hst

/-- When the written offset and the offset of the reference zone differ by a whole
number of half hours, the minute read in either is on a half-hour mark or in
neither. -/
theorem minute_mod_agree (pacificTZ : Location) (s : Time)
    (hoff : (s.loc.lookup s.Unix - pacificTZ.lookup s.Unix) % 1800 = 0) :
    s.Minute % 30 = 0 ↔ (s.In pacificTZ).Minute % 30 = 0 := by
  simp only [Time.Minute, Time.abs, Time.In, Time.Unix] at hoff ⊢
  omega

/-- C18, amended: for a well-formed, in-hours start written in an offset that
differs from that of the reference zone by a whole number of half hours,
`CreateAppointment` answers with the alignment error when the minute of the
start in the reference zone is neither 0 nor 30, and does not answer with it
when that minute is 0 or 30, whatever the seconds; and a start that is
admitted has minute 0 or 30 in the reference zone. -/
theorem alignment_by_minute (env : Env) (db : DB) (req : CreateRequest) (s e : Time)
    (hs : env.Parse req.StartsAt = some s) (he : env.Parse req.EndsAt = some e)
    (hb : isBusinessHours env.pacificTZ s = true)
    (hoff : (s.loc.lookup s.Unix - env.pacificTZ.lookup s.Unix) % 1800 = 0) :
    ((s.In env.pacificTZ).Minute % 30 ≠ 0 →
      CreateAppointment env db (.ok req) = (alignmentError, db)) ∧
    ((s.In env.pacificTZ).Minute % 30 = 0 →
      (CreateAppointment env db (.ok req)).1 ≠ alignmentError) ∧
    ((CreateAppointment env db (.ok req)).1.status = 201 →
      (s.In env.pacificTZ).Minute = 0 ∨ (s.In env.pacificTZ).Minute = 30) := by
  have hagree := minute_mod_agree env.pacificTZ s hoff
  refine ⟨?_, ?_, ?_⟩
  · intro hm
    exact CreateAppointment_misaligned env db req s e hs he hb (fun h => hm (hagree.mp h))
  · intro hm
    have ha := hagree.mpr hm
    by_cases hd : e.Sub s = duration
    · rw [CreateAppointment_valid env db req s e hs he hb ha hd]
      split
      · simp [conflictError, alignmentError]
      · simp [alignmentError]
    · rw [CreateAppointment_wrong_span env db req s e hs he hb ha hd]
      simp [durationError, alignmentError]
  · intro hst
    by_cases ha : s.Minute % 30 = 0
    · have hm := hagree.mp ha
      have hr : 0 ≤ (s.In env.pacificTZ).Minute ∧ (s.In env.pacificTZ).Minute < 60 := by
        simp only [Time.Minute]
        omega
      omega
    · rw [CreateAppointment_misaligned env db req s e hs he hb ha] at hst
      simp [alignmentError] at hst

/-- C18, amended, on dated requests: the start 09:15 Pacific time is answered with
the alignment error, and the start 09:00:15 is not. -/
theorem alignment_by_minute_dated :
    CreateAppointment example2019 testDB
      (.ok ⟨1, 102, "2019-01-24T09:15:00-08:00", "2019-01-24T09:45:00-08:00"⟩) =
        (alignmentError, testDB) ∧
    (CreateAppointment example2019 testDB
      (.ok ⟨1, 100, "2019-01-24T09:00:15-08:00", "2019-01-24T09:30:15-08:00"⟩)).1 ≠
        alignmentError :=
  ⟨(alignment_by_minute example2019 testDB
      ⟨1, 102, "2019-01-24T09:15:00-08:00", "2019-01-24T09:45:00-08:00"⟩
      ⟨1548350100000000000, FixedZone (-28800)⟩ ⟨1548351900000000000, FixedZone (-28800)⟩
      rfl rfl (by decide) (by decide)).1 (by decide),
   (alignment_by_minute example2019 testDB
      ⟨1, 100, "2019-01-24T09:00:15-08:00", "2019-01-24T09:30:15-08:00"⟩
      ⟨1548349215000000000, FixedZone (-28800)⟩ ⟨1548351015000000000, FixedZone (-28800)⟩
      rfl rfl (by decide) (by decide)).2.1 (by decide)⟩

/-! ## Slots and bookings (C19, C20) -/

/-- A slot is in the response to a well-formed query exactly when it is the
rendered slot of a free cursor of the range. -/
theorem mem_slots_iff (env : Env) (db : DB) (q : Query) (T : Int) (s e : Time)
    (h1 : q.trainer_id ≠ "") (h2 : q.starts_at ≠ "") (h3 : q.ends_at ≠ "")
    (hs : env.Parse q.starts_at = some s) (he : env.Parse q.ends_at = some e)
    (hT : env.int8 q.trainer_id = some T) (slot : AvailableSlot) :
    slot ∈ (GetAvailableAppointments env db q).slots ↔
      ∃ k : Nat, s.ns + k * duration < e.ns ∧
        isFree env.pacificTZ (bookedKeys db T s e) (cursor s k) = true ∧
        slot = render env.pacificTZ (slotAt s k) := by
  rw [GetAvailableAppointments_ok env db q T s e h1 h2 h3 hs he hT]
  simp only [Response.slots, List.mem_map, List.mem_filter, List.mem_range,
    exists_exists_and_eq_and, lt_cursorCount_iff]
  constructor
  · rintro ⟨k, ⟨hk, hf⟩, rfl⟩
    exact ⟨k, hk, hf, rfl⟩
  · rintro ⟨k, hk, hf, rfl⟩
    exact ⟨k, ⟨hk, hf⟩, rfl⟩

/-- C19: take a well-formed query whose `rangeStart` has minute 0 or 30 in the
reference zone, and a slot of the response, the offset of the reference zone
being a whole number of half hours at `rangeStart` and at the start of the
slot. A request for the trainer of the query whose `starts_at` and `ends_at`
parse to the instants of the slot, the start being written in the offset of
the reference zone as the response renders it, passes the business-hours,
alignment and duration checks, meets no row with its trainer and start
instant, and is answered 201 with one row appended. -/
theorem returned_slot_is_bookable (env : Env) (db : DB) (q : Query) (T : Int) (s e : Time)
    (slot : AvailableSlot) (req : CreateRequest) (s1 e1 : Time)
    (h1 : q.trainer_id ≠ "") (h2 : q.starts_at ≠ "") (h3 : q.ends_at ≠ "")
    (hs : env.Parse q.starts_at = some s) (he : env.Parse q.ends_at = some e)
    (hT : env.int8 q.trainer_id = some T)
    (hmin : (s.In env.pacificTZ).Minute % 30 = 0)
    (hz0 : env.pacificTZ.lookup s.Unix % 1800 = 0)
    (hslot : slot ∈ (GetAvailableAppointments env db q).slots)
    (hreq : req.TrainerID = T)
    (hs1 : env.Parse req.StartsAt = some s1) (hns1 : s1.ns = slot.StartsAt.ns)
    (hloc : s1.loc.lookup s1.Unix = env.pacificTZ.lookup s1.Unix)
    (hz1 : env.pacificTZ.lookup s1.Unix % 1800 = 0)
    (he1 : env.Parse req.EndsAt = some e1) (hne1 : e1.ns = slot.EndsAt.ns) :
    isBusinessHours env.pacificTZ s1 = true ∧ s1.Minute % 30 = 0 ∧
    e1.Sub s1 = duration ∧
    (¬ ∃ apt ∈ db.rows, apt.TrainerID = req.TrainerID ∧ apt.StartsAt.ns = s1.ns) ∧
    (CreateAppointment env db (.ok req)).1.status = 201 ∧
    (CreateAppointment env db (.ok req)).2.rows.length = db.rows.length + 1 := by
  obtain ⟨k, hk, hfree, rfl⟩ :=
    (mem_slots_iff env db q T s e h1 h2 h3 hs he hT slot).mp hslot
  have hf := (isFree_iff env.pacificTZ db T s e k).mp hfree
  have hns1b : s1.ns = s.ns + k * duration := hns1
  have hne1b : e1.ns = s.ns + k * duration + duration := hne1
  have hb : isBusinessHours env.pacificTZ s1 = true := by
    have : isBusinessHours env.pacificTZ s1 =
        isBusinessHours env.pacificTZ (instant (s.ns + k * duration)) := by
      simp only [isBusinessHours, Time.In, instant, hns1b]
    rw [this]
    exact hf.1
  have ha : s1.Minute % 30 = 0 := by
    simp only [Time.Minute, Time.abs, Time.In, Time.Unix, Second_eq, duration_eq] at *
    rw [hloc]
    have hu : s1.ns / 1000000000 = s.ns / 1000000000 + 1800 * (k : Int) := by
      rw [hns1b]; omega
    rw [hu] at hz1 ⊢
    omega
  have hd : e1.Sub s1 = duration := by
    rw [Sub_eq_duration_iff, hne1b, hns1b]
    ring
  have hno : ¬ ∃ apt ∈ db.rows, apt.TrainerID = req.TrainerID ∧ apt.StartsAt.ns = s1.ns := by
    rintro ⟨apt, hapt, hTr, hst⟩
    apply hf.2
    refine ⟨apt, hapt, hTr.trans hreq, ?_, ?_, ?_⟩
    · rw [hst, hns1b, duration_eq]; omega
    · rw [hst, hns1b]; exact hk
    · rw [hst, hns1b]
  have hv := CreateAppointment_valid env db req s1 e1 hs1 he1 hb ha hd
  rw [if_neg (by simpa using hno)] at hv
  refine ⟨hb, ha, hd, hno, ?_, ?_⟩
  · rw [hv]
  · rw [hv]
    simp

/-- C19 on the test table: the first slot returned to trainer 1 for the business
day of 2019-01-24, from 08:00 to 08:30 Pacific time, is admitted when requested
as `2019-01-24T08:00:00-08:00` to `2019-01-24T08:30:00-08:00`. -/
theorem returned_slot_is_bookable_dated :
    render losAngeles (slotAt ⟨1548345600000000000, FixedZone (-28800)⟩ 0) ∈
      (GetAvailableAppointments example2019 testDB
        ⟨"1", "2019-01-24T08:00:00-08:00", "2019-01-24T17:00:00-08:00"⟩).slots ∧
    (CreateAppointment example2019 testDB
      (.ok ⟨1, 100, "2019-01-24T08:00:00-08:00", "2019-01-24T08:30:00-08:00"⟩)).1.status = 201 ∧
    (CreateAppointment example2019 testDB
      (.ok ⟨1, 100, "2019-01-24T08:00:00-08:00", "2019-01-24T08:30:00-08:00"⟩)).2.rows.length =
        testDB.rows.length + 1 := by
  have hmem : render losAngeles (slotAt ⟨1548345600000000000, FixedZone (-28800)⟩ 0) ∈
      (GetAvailableAppointments example2019 testDB
        ⟨"1", "2019-01-24T08:00:00-08:00", "2019-01-24T17:00:00-08:00"⟩).slots := by
    rw [mem_slots_iff example2019 testDB
      ⟨"1", "2019-01-24T08:00:00-08:00", "2019-01-24T17:00:00-08:00"⟩ 1
      ⟨1548345600000000000, FixedZone (-28800)⟩ ⟨1548378000000000000, FixedZone (-28800)⟩
      (by decide) (by decide) (by decide) rfl rfl rfl]
    exact ⟨0, by decide, by decide, rfl⟩
  have h := returned_slot_is_bookable example2019 testDB
    ⟨"1", "2019-01-24T08:00:00-08:00", "2019-01-24T17:00:00-08:00"⟩ 1
    ⟨1548345600000000000, FixedZone (-28800)⟩ ⟨1548378000000000000, FixedZone (-28800)⟩
    (render losAngeles (slotAt ⟨1548345600000000000, FixedZone (-28800)⟩ 0))
    ⟨1, 100, "2019-01-24T08:00:00-08:00", "2019-01-24T08:30:00-08:00"⟩
    ⟨1548345600000000000, FixedZone (-28800)⟩ ⟨1548347400000000000, FixedZone (-28800)⟩
    (by decide) (by decide) (by decide) rfl rfl rfl (by decide) (by decide)
    hmem rfl rfl (by decide) (by decide) (by decide) rfl (by decide)
  exact ⟨hmem, h.2.2.2.2.1, h.2.2.2.2.2⟩

/-- The table after an admitted request is the table before it with one row, of
the trainer and the start instant of the request, appended. -/
theorem admitted_rows (env : Env) (db : DB) (req : CreateRequest) (s e : Time)
    (hs : env.Parse req.StartsAt = some s) (he : env.Parse req.EndsAt = some e)
    (hadm : (CreateAppointment env db (.ok req)).1.status = 201) :
    (CreateAppointment env db (.ok req)).2 =
      ⟨db.rows ++ [{ ID := db.nextID, TrainerID := req.TrainerID, UserID := req.UserID,
                     StartsAt := s.UTC, EndsAt := e.UTC }]⟩ := by
  rcases CreateAppointment_cases env db (.ok req) with
    ⟨r, hr, h⟩ | ⟨req1, s1, e1, hreq, hs1, he1, _, _, _, h⟩
  · rw [h db] at hadm
    simp only at hadm
    omega
  · cases hreq
    rw [hs] at hs1
    rw [he] at he1
    cases hs1
    cases he1
    rcases h with ⟨_, h⟩ | ⟨_, h⟩
    · rw [h] at hadm
      simp [conflictError] at hadm
    · rw [h]

/-- The test of the loop on a table with one more row: the cursor must pass the
test on the table without the row, and the row must not hide it. -/
theorem isFree_append (pacificTZ : Location) (rows : List Appointment) (row : Appointment)
    (T : Int) (a b : Time) (k : Nat) :
    isFree pacificTZ (bookedKeys ⟨rows ++ [row]⟩ T a b) (cursor a k) = true ↔
      isFree pacificTZ (bookedKeys ⟨rows⟩ T a b) (cursor a k) = true ∧
        ¬ (row.TrainerID = T ∧ a.ns ≤ row.StartsAt.ns ∧ row.StartsAt.ns < b.ns ∧
          row.StartsAt.ns / Second = (a.ns + k * duration) / Second) := by
  rw [isFree_iff, isFree_iff]
  constructor
  · rintro ⟨hb, hn⟩
    refine ⟨⟨hb, ?_⟩, ?_⟩
    · rintro ⟨apt, hapt, h⟩
      exact hn ⟨apt, List.mem_append.mpr (Or.inl hapt), h⟩
    · intro h
      exact hn ⟨row, List.mem_append.mpr (Or.inr (List.mem_singleton.mpr rfl)), h⟩
  · rintro ⟨⟨hb, hn⟩, hrow⟩
    refine ⟨hb, ?_⟩
    rintro ⟨apt, hapt, h⟩
    rcases List.mem_append.mp hapt with hold | hnew
    · exact hn ⟨apt, hold, h⟩
    · rw [List.mem_singleton] at hnew
      subst hnew
      exact hrow h

/-- A row of another trainer adds no key to the booked set. -/
theorem bookedKeys_append_other (rows : List Appointment) (row : Appointment) (T : Int)
    (a b : Time) (hne : row.TrainerID ≠ T) :
    bookedKeys ⟨rows ++ [row]⟩ T a b = bookedKeys ⟨rows⟩ T a b := by
  simp [bookedKeys, bookedRows, List.filter_append, hne]

/-- C20, as stated, fails: on an empty table the range from 09:00:00 to 09:30:00
Pacific time of 2019-01-24 has a slot at 09:00:00 for trainer 1; the booking of
trainer 1 from 09:00:00.5 to 09:30:00.5 is admitted; and afterwards the same
range has no slot for trainer 1, although the slot at 09:00:00 does not start
at the instant of the booking. -/
theorem other_slot_is_hidden :
    ((GetAvailableAppointments example2019 ⟨[]⟩
      ⟨"1", "2019-01-24T09:00:00-08:00", "2019-01-24T09:30:00-08:00"⟩).slots.map
        fun slot => slot.StartsAt.ns) = [1548349200000000000] ∧
    (parseRFC3339 "2019-01-24T09:00:00.5-08:00").map (fun t => t.ns) =
      some 1548349200500000000 ∧
    (parseRFC3339 "2019-01-24T09:30:00.5-08:00").map (fun t => t.ns) =
      some 1548351000500000000 ∧
    (CreateAppointment example2019 ⟨[]⟩
      (.ok ⟨1, 100, "2019-01-24T09:00:00.5-08:00", "2019-01-24T09:30:00.5-08:00"⟩)).1.status =
        201 ∧
    (1548349200000000000 : Int) ≠ 1548349200500000000 ∧
    ((GetAvailableAppointments example2019
      (CreateAppointment example2019 ⟨[]⟩
        (.ok ⟨1, 100, "2019-01-24T09:00:00.5-08:00", "2019-01-24T09:30:00.5-08:00"⟩)).2
      ⟨"1", "2019-01-24T09:00:00-08:00", "2019-01-24T09:30:00-08:00"⟩).slots.map
        fun slot => slot.StartsAt.ns) = [] := by
  refine ⟨by decide, by decide, by decide, by decide, by decide, by decide⟩

/-- C20, amended: after an admitted booking of trainer `T` at start instant `s`,
no query for trainer `T` gets a slot starting at `s`; every slot a query got
before the booking, and that does not start in the Unix second of `s`, it
still gets; and the response to a query whose trainer text is not read as `T`
is the same as before. -/
theorem booking_hides_its_second (env : Env) (db : DB) (req : CreateRequest) (s e : Time)
    (hs : env.Parse req.StartsAt = some s) (he : env.Parse req.EndsAt = some e)
    (hadm : (CreateAppointment env db (.ok req)).1.status = 201) :
    (∀ q : Query, env.int8 q.trainer_id = some req.TrainerID →
      ∀ slot ∈ (GetAvailableAppointments env (CreateAppointment env db (.ok req)).2 q).slots,
        slot.StartsAt.ns ≠ s.ns) ∧
    (∀ q : Query, ∀ slot ∈ (GetAvailableAppointments env db q).slots,
      slot.StartsAt.ns / Second ≠ s.ns / Second →
      slot ∈ (GetAvailableAppointments env (CreateAppointment env db (.ok req)).2 q).slots) ∧
    (∀ q : Query, env.int8 q.trainer_id ≠ some req.TrainerID →
      GetAvailableAppointments env (CreateAppointment env db (.ok req)).2 q =
        GetAvailableAppointments env db q) := by
  rw [admitted_rows env db req s e hs he hadm]
  refine ⟨?_, ?_, ?_⟩
  · intro q hT slot hslot hst
    rcases GetAvailableAppointments_cases env db q with
      ⟨_, h⟩ | ⟨_, _, h⟩ | ⟨_, _, _, h⟩ | ⟨T, a, b, ⟨h1, h2, h3⟩, ha, hb, hT1, _⟩
    · rw [h _] at hslot; exact absurd hslot (List.not_mem_nil _)
    · rw [h _] at hslot; exact absurd hslot (List.not_mem_nil _)
    · rw [h _] at hslot; exact absurd hslot (List.not_mem_nil _)
    · rw [hT] at hT1
      cases hT1
      obtain ⟨k, hk, hfree, rfl⟩ :=
        (mem_slots_iff env _ q req.TrainerID a b h1 h2 h3 ha hb hT slot).mp hslot
      have hfr := ((isFree_append env.pacificTZ db.rows _ req.TrainerID a b k).mp hfree).2
      have hst2 : a.ns + k * duration = s.ns := hst
      apply hfr
      refine ⟨rfl, ?_, ?_, ?_⟩
      · show a.ns ≤ s.ns
        rw [← hst2, duration_eq]; omega
      · show s.ns < b.ns
        rw [← hst2]; exact hk
      · show s.ns / Second = (a.ns + k * duration) / Second
        rw [hst2]
  · intro q slot hslot hsec
    rcases GetAvailableAppointments_cases env db q with
      ⟨_, h⟩ | ⟨_, _, h⟩ | ⟨_, _, _, h⟩ | ⟨T, a, b, ⟨h1, h2, h3⟩, ha, hb, hT1, _⟩
    · rw [h db] at hslot; exact absurd hslot (List.not_mem_nil _)
    · rw [h db] at hslot; exact absurd hslot (List.not_mem_nil _)
    · rw [h db] at hslot; exact absurd hslot (List.not_mem_nil _)
    · obtain ⟨k, hk, hfree, rfl⟩ :=
        (mem_slots_iff env db q T a b h1 h2 h3 ha hb hT1 slot).mp hslot
      rw [mem_slots_iff env _ q T a b h1 h2 h3 ha hb hT1]
      refine ⟨k, hk, (isFree_append env.pacificTZ db.rows _ T a b k).mpr ⟨hfree, ?_⟩, rfl⟩
      rintro ⟨_, _, _, hsame⟩
      exact hsec hsame.symm
  · intro q hT
    rcases GetAvailableAppointments_cases env db q with
      ⟨_, h⟩ | ⟨_, _, h⟩ | ⟨_, _, _, h⟩ | ⟨T, a, b, ⟨h1, h2, h3⟩, ha, hb, hT1, h⟩
    · rw [h _, h db]
    · rw [h _, h db]
    · rw [h _, h db]
    · rw [h, GetAvailableAppointments_ok env _ q T a b h1 h2 h3 ha hb hT1]
      have hne : req.TrainerID ≠ T := by
        intro hc
        apply hT
        rw [hT1, hc]
      rw [bookedKeys_append_other db.rows _ T a b hne]

/-- C20, amended, on the test table: after trainer 2 books 10:00 to 10:30 Pacific
time on 2019-01-24, trainer 1 still gets 17 slots for that business day. -/
theorem booking_hides_its_second_dated :
    GetAvailableAppointments example2019
        (CreateAppointment example2019 testDB
          (.ok ⟨2, 100, "2019-01-24T10:00:00-08:00", "2019-01-24T10:30:00-08:00"⟩)).2
        ⟨"1", "2019-01-24T08:00:00-08:00", "2019-01-24T17:00:00-08:00"⟩ =
      GetAvailableAppointments example2019 testDB
        ⟨"1", "2019-01-24T08:00:00-08:00", "2019-01-24T17:00:00-08:00"⟩ :=
  (booking_hides_its_second example2019 testDB
    ⟨2, 100, "2019-01-24T10:00:00-08:00", "2019-01-24T10:30:00-08:00"⟩
    ⟨1548352800000000000, FixedZone (-28800)⟩ ⟨1548354600000000000, FixedZone (-28800)⟩
    rfl rfl (by decide)).2.2
    ⟨"1", "2019-01-24T08:00:00-08:00", "2019-01-24T17:00:00-08:00"⟩ (by decide)

end Appointments
